import Mathlib

/-!
# Property Inventory API (`app/app.js`)

A shallow embedding of the request handlers of `app/app.js` (an Express application
over one MySQL table, `properties`) and of the start-up script around them.

* The handlers are translated from the source.  Each handler issues at most one
  `connection.query(sql, params, callback)`; it is embedded as the statement it sends
  together with its callback, or as the error it throws before sending one.
* The coercions of `*` (`ToNumber`, `ToPrimitive`) follow ECMAScript on the values a
  JSON body can hold.  The number type is a parameter (`NumberOps`); `Double` is the
  IEEE 754 binary64 instance of its multiplication.
* The MySQL engine is an external collaborator: it is given by a reference model of
  the five statements the handlers send (`Db`), written from the specification.
-/

namespace PropertyApi

/-! ## JavaScript values -/

/-- A JavaScript value that can reach a handler through `req.body` (a parsed JSON
document), or `undefined`, the value of a property the body does not have.
`N` is the runtime's number type. -/
inductive JsVal (N : Type) where
  | undefined
  | null
  | bool (b : Bool)
  | num (n : N)
  | str (s : String)
  | arr (items : List (JsVal N))
  | obj (props : List (String × JsVal N))

/-- The number operations of the JavaScript runtime that `a * b` relies on. -/
structure NumberOps (N : Type) where
  /-- The value `NaN`. -/
  nan : N
  /-- The value `+0`. -/
  zero : N
  /-- The value `1`. -/
  one : N
  /-- The operation `Number::multiply`. -/
  mul : N → N → N
  /-- The operation `StringToNumber`. -/
  ofString : String → N
  /-- The operation `Number::toString` (radix 10). -/
  toString : N → String

/-- The error `OrdinaryToPrimitive` throws when neither `valueOf` nor `toString`
yields a primitive. -/
def cannotConvert : String :=
  "TypeError: Cannot convert object to primitive value"

/-- Whether a parsed JSON object has an own property of that name. -/
def hasOwn {N : Type} (props : List (String × JsVal N)) (name : String) : Bool :=
  props.any fun kv => kv.1 == name

mutual
/-- The string of an array, as `ToPrimitive` obtains it from
`Array.prototype.toString`: the elements joined with `,`, or the error the first
element that cannot be converted throws. -/
def JsVal.joinItems {N : Type} (ops : NumberOps N) : List (JsVal N) → Except String String
  | [] => .ok ""
  | [x] => JsVal.itemStr ops x
  | x :: y :: rest =>
    match JsVal.itemStr ops x with
    | .error err => .error err
    | .ok first =>
      match JsVal.joinItems ops (y :: rest) with
      | .error err => .error err
      | .ok others => .ok (first ++ "," ++ others)
/-- One element of an array inside `join`: `undefined` and `null` print as the empty
string, an array through `join` again. A plain object prints through
`Object.prototype.toString` as `[object Object]`, unless it has an own property
`toString`: a value parsed from JSON is never callable, the inherited `valueOf`
returns the object itself, and `ToPrimitive` throws. -/
def JsVal.itemStr {N : Type} (ops : NumberOps N) : JsVal N → Except String String
  | .undefined => .ok ""
  | .null => .ok ""
  | .bool true => .ok "true"
  | .bool false => .ok "false"
  | .num n => .ok (ops.toString n)
  | .str s => .ok s
  | .arr items => JsVal.joinItems ops items
  | .obj props => if hasOwn props "toString" then .error cannotConvert else .ok "[object Object]"
end

/-- The abstract operation `ToNumber`, applied by `*` to each operand; `.error` is a
thrown `TypeError`. An array or object goes through `ToPrimitive` with hint number:
the inherited `valueOf` returns the object itself, so the result is that of
`toString`, read as a number; an object with an own (hence not callable) `toString`
has no primitive value. -/
def JsVal.toNumber {N : Type} (ops : NumberOps N) : JsVal N → Except String N
  | .undefined => .ok ops.nan
  | .null => .ok ops.zero
  | .bool true => .ok ops.one
  | .bool false => .ok ops.zero
  | .num n => .ok n
  | .str s => .ok (ops.ofString s)
  | .arr items =>
    match JsVal.joinItems ops items with
    | .error err => .error err
    | .ok s => .ok (ops.ofString s)
  | .obj props =>
    if hasOwn props "toString" then .error cannotConvert
    else .ok (ops.ofString "[object Object]")

/-- The expression `a * b` on request values: the left operand is converted first,
then the right one, then the numbers are multiplied; `.error` is the `TypeError` a
conversion throws. -/
def jsMul {N : Type} (ops : NumberOps N) (a b : JsVal N) : Except String N :=
  match a.toNumber ops with
  | .error err => .error err
  | .ok x =>
    match b.toNumber ops with
    | .error err => .error err
    | .ok y => .ok (ops.mul x y)

/-- A parsed JSON object: its own properties, each name once. It stands for
`req.body` as `bodyParser.json()` leaves it: the parsed document, an object (an
array has none of the eight names the handlers read), or the empty object when the
request carries no JSON body. None of those names is inherited from
`Object.prototype`. -/
abbrev JsObj (N : Type) := List (String × JsVal N)

/-- Property access `o.k`: `undefined` when `o` has no property `k`. -/
def JsObj.get {N : Type} (o : JsObj N) (k : String) : JsVal N :=
  match o.lookup k with
  | some v => v
  | none => .undefined

/-! ## The request handlers -/

/-- The object literal `property` that both writing handlers build (lines 189, 284):
the row payload handed to `connection.query`. -/
structure Property (N : Type) where
  location : JsVal N
  square_meters : JsVal N
  price_per_square_meter : JsVal N
  total_price : JsVal N
  owner : JsVal N
  country : JsVal N
  region : JsVal N
  province : JsVal N
  district : JsVal N

/-- A row of table `properties` as the driver hands it to a callback. -/
structure Row (N : Type) where
  id : Nat
  cols : Property N

/-- The result object of an `INSERT`, `UPDATE` or `DELETE`. -/
structure OkPacket where
  affectedRows : Nat
  insertId : Nat

/-- What is passed to `res.json`. -/
inductive Body (N : Type) where
  | rows (results : List (Row N))
  | row (result : Row N)
  | message (text : String)
  | error (text : String)

/-- How a request ends: a response `res.status(code).json(body)` (`res.json(body)`
is status 200); `throw err` inside a query callback, which nothing catches; or
`serverError err`, the status 500 with which Express answers an error thrown by the
handler itself. -/
inductive Reply (N : Type) where
  | json (status : Nat) (body : Body N)
  | throw (err : String)
  | serverError (err : String)

/-- What a callback receives: `(err, results)`. -/
abbrev Outcome (α : Type) := Except String α

/-- What a handler does with a request: one `connection.query` call, given by the
SQL text it sends (one constructor per text in the source), its parameters and its
callback; or `raise err`, the handler throws `err` before it sends any statement. -/
inductive Action (N : Type) where
  /-- Is `SELECT * FROM properties`. -/
  | selectAll (callback : Outcome (List (Row N)) → Reply N)
  /-- Is `SELECT * FROM properties WHERE id = ?` with `[id]`. -/
  | selectById (id : String) (callback : Outcome (List (Row N)) → Reply N)
  /-- Is `INSERT INTO properties SET ?` with `property`. -/
  | insert (property : Property N) (callback : Outcome OkPacket → Reply N)
  /-- Is `UPDATE properties SET ? WHERE id = ?` with `[property, id]`. -/
  | update (property : Property N) (id : String) (callback : Outcome OkPacket → Reply N)
  /-- Is `DELETE FROM properties WHERE id = ?` with `[id]`. -/
  | delete (id : String) (callback : Outcome OkPacket → Reply N)
  | raise (err : String)

/-- Lines 187-189 and 282-284: destructure the eight caller fields from `req.body`,
compute `totalPrice`, build `property`; `.error` when the multiplication of line 188
(283) throws. -/
def buildProperty {N : Type} (ops : NumberOps N) (body : JsObj N) :
    Except String (Property N) :=
  let location := body.get "location"
  let square_meters := body.get "square_meters"
  let price_per_square_meter := body.get "price_per_square_meter"
  let owner := body.get "owner"
  let country := body.get "country"
  let region := body.get "region"
  let province := body.get "province"
  let district := body.get "district"
  match jsMul ops price_per_square_meter square_meters with
  | .error err => .error err
  | .ok totalPrice =>
    .ok { location := location, square_meters := square_meters,
          price_per_square_meter := price_per_square_meter,
          total_price := .num totalPrice, owner := owner, country := country,
          region := region, province := province, district := district }

/-- Callback of `app.get('/properties')`, lines 156-159. -/
def getPropertiesCallback {N : Type} : Outcome (List (Row N)) → Reply N
  | .error err => .throw err
  | .ok results => .json 200 (.rows results)

/-- Handler `app.get('/properties')`, lines 155-160. -/
def getProperties {N : Type} : Action N :=
  .selectAll getPropertiesCallback

/-- Callback of `app.post('/properties')`, lines 190-193. -/
def postPropertiesCallback {N : Type} : Outcome OkPacket → Reply N
  | .error err => .throw err
  | .ok _ => .json 200 (.message "Property registered successfully")

/-- Handler `app.post('/properties')`, lines 186-194. -/
def postProperties {N : Type} (ops : NumberOps N) (body : JsObj N) : Action N :=
  match buildProperty ops body with
  | .error err => .raise err
  | .ok property => .insert property postPropertiesCallback

/-- Callback of `app.get('/properties/:id')`, lines 229-236. -/
def getPropertyCallback {N : Type} : Outcome (List (Row N)) → Reply N
  | .error err => .throw err
  | .ok [] => .json 404 (.error "Property not found")
  | .ok (first :: _) => .json 200 (.row first)

/-- Handler `app.get('/properties/:id')`, lines 227-237. -/
def getProperty {N : Type} (id : String) : Action N :=
  .selectById id getPropertyCallback

/-- Callback of `app.put('/properties/:id')`, lines 285-292. -/
def putPropertyCallback {N : Type} : Outcome OkPacket → Reply N
  | .error err => .throw err
  | .ok results =>
    if results.affectedRows = 0 then .json 404 (.error "Property not found")
    else .json 200 (.message "Property updated successfully")

/-- Handler `app.put('/properties/:id')`, lines 280-293. -/
def putProperty {N : Type} (ops : NumberOps N) (id : String) (body : JsObj N) : Action N :=
  match buildProperty ops body with
  | .error err => .raise err
  | .ok property => .update property id putPropertyCallback

/-- Callback of `app.delete('/properties/:id')`, lines 332-339. -/
def deletePropertyCallback {N : Type} : Outcome OkPacket → Reply N
  | .error err => .throw err
  | .ok results =>
    if results.affectedRows = 0 then .json 404 (.error "Property not found")
    else .json 200 (.message "Property deleted successfully")

/-- Handler `app.delete('/properties/:id')`, lines 330-340. -/
def deleteProperty {N : Type} (id : String) : Action N :=
  .delete id deletePropertyCallback

/-- The row payload an action hands to storage, if it hands one. -/
def Action.sentRow {N : Type} : Action N → Option (Property N)
  | .insert property _ => some property
  | .update property _ _ => some property
  | _ => none

/-- The names line 187 (and 282) destructures from `req.body`. -/
def callerFields : List String :=
  ["location", "square_meters", "price_per_square_meter", "owner", "country", "region",
   "province", "district"]

/-- Whether a request value is a number (`typeof v === 'number'`). -/
def JsVal.isNumber {N : Type} : JsVal N → Bool
  | .num _ => true
  | _ => false

/-! ## The storage engine -/

/-- Modelled from the spec: the key a path segment `:id` denotes for the comparison
`WHERE id = ?` ("`id` must parse as the storage key type"): a non-empty run of
decimal digits, read in base ten. The MySQL engine that makes the comparison is not
part of the repository. -/
def keyOfDigits : List Char → Nat → Option Nat
  | [], acc => some acc
  | c :: cs, acc =>
    if c.isDigit then keyOfDigits cs (acc * 10 + (c.toNat - 48)) else none

/-- Modelled from the spec: the key of a path segment; no key for the empty segment
or one with a character that is not a digit. -/
def keyOf (id : String) : Option Nat :=
  match id.data with
  | [] => none
  | c :: cs => keyOfDigits (c :: cs) 0

/-- Modelled from the spec: the test `WHERE id = ?` on one row. -/
def hasKey {N : Type} (id : String) (r : Row N) : Bool :=
  keyOf id == some r.id

/-- The error of calling a `toString` that is not a function. -/
def notPrintable : String :=
  "TypeError: val.toString is not a function"

mutual
/-- Modelled from the spec: the storage capability as the `mysql` driver presents it
(the driver is not part of the repository). Inside `connection.query`, before
anything is sent, the driver prints every payload value into the statement: `NULL`
for `undefined` and `null`, booleans, numbers and strings as literals, an array as
the list of its elements, any other object through its `toString()`. That call
throws for an object with an own property `toString`, which a value parsed from
JSON never has as a function. -/
def JsVal.unprintable {N : Type} : JsVal N → Bool
  | .arr items => JsVal.anyUnprintable items
  | .obj props => hasOwn props "toString"
  | _ => false
/-- Modelled from the spec: whether the driver fails to print an element of the
array. -/
def JsVal.anyUnprintable {N : Type} : List (JsVal N) → Bool
  | [] => false
  | x :: xs => JsVal.unprintable x || JsVal.anyUnprintable xs
end

/-- Modelled from the spec: the error the driver throws inside `connection.query`
while printing the payload, if a value cannot be printed; nothing is sent then. -/
def formatError {N : Type} (p : Property N) : Option String :=
  if p.location.unprintable || p.square_meters.unprintable ||
      p.price_per_square_meter.unprintable || p.total_price.unprintable ||
      p.owner.unprintable || p.country.unprintable || p.region.unprintable ||
      p.province.unprintable || p.district.unprintable
  then some notPrintable else none

/-- The column types of `createTableQuery`, lines 28-37 (spec 4.1). -/
inductive ColumnType where
  | decimal (digits scale : Nat)
  | varchar (length : Nat)

/-- Modelled from the spec: what a column of the MySQL engine does with a value
written to it: `.ok v` is the value the column then holds and gives back on reading
(the value as sent, or converted to the column type), `.error err` the error with
which the engine refuses the row. It belongs to the engine, not to the repository,
and is a field of `Db`. -/
abbrev ColumnWrite (N : Type) := ColumnType → JsVal N → Except String (JsVal N)

/-- Modelled from the spec: the value a column takes from a payload value. A property
that is `undefined` or `null` in the payload is sent as `NULL` ("missing fields
silently produce null columns") and every column takes `NULL`; any other value is
what the engine's column makes of it. -/
def toColumn {N : Type} (column : ColumnWrite N) (type : ColumnType) :
    JsVal N → Except String (JsVal N)
  | .undefined => .ok .null
  | .null => .ok .null
  | v => column type v

/-- Modelled from the spec: the row `SET ?` writes for a payload, column by column
with the types of lines 29-37, or the first error of a column. -/
def storeCols {N : Type} (column : ColumnWrite N) (p : Property N) :
    Except String (Property N) := do
  let location ← toColumn column (.varchar 100) p.location
  let square_meters ← toColumn column (.decimal 10 2) p.square_meters
  let price_per_square_meter ← toColumn column (.decimal 10 2) p.price_per_square_meter
  let total_price ← toColumn column (.decimal 10 2) p.total_price
  let owner ← toColumn column (.varchar 50) p.owner
  let country ← toColumn column (.varchar 50) p.country
  let region ← toColumn column (.varchar 50) p.region
  let province ← toColumn column (.varchar 50) p.province
  let district ← toColumn column (.varchar 50) p.district
  pure { location := location, square_meters := square_meters,
         price_per_square_meter := price_per_square_meter, total_price := total_price,
         owner := owner, country := country, region := region, province := province,
         district := district }

/-- Modelled from the spec: the state of table `properties` in the MySQL engine (an
external collaborator, "a capability that executes SQL and returns rows/affected-row
counts"): the rows in the order storage returns them, the `AUTO_INCREMENT` counter,
and the behaviour of its columns on writing. -/
structure Db (N : Type) where
  rows : List (Row N)
  nextId : Nat
  column : ColumnWrite N

/-- Modelled from the spec: one request against the table. A handler that throws
before calling `connection.query`, or inside it while the driver prints the payload,
is answered by Express with status 500 and the table is untouched. Otherwise there
is one round trip. With `failure = some err` the statement fails before it touches
a row (connection lost, a text the engine cannot read), the callback receives `err`
and the table is unchanged. Otherwise the statement runs: `SELECT` returns rows and
changes nothing; `INSERT` writes the payload through the columns, appends the row
under the next key and reports it as `insertId`; `UPDATE` writes the payload through
the columns into every row with the key and reports how many it matched; `DELETE`
removes every row with the key and reports how many. A row the columns refuse fails
the statement and leaves the table unchanged. The result is what the callback does,
and the table afterwards. -/
def Db.run {N : Type} (failure : Option String) (db : Db N) : Action N → Reply N × Db N
  | .raise err => (.serverError err, db)
  | .selectAll callback =>
    match failure with
    | some err => (callback (.error err), db)
    | none => (callback (.ok db.rows), db)
  | .selectById id callback =>
    match failure with
    | some err => (callback (.error err), db)
    | none => (callback (.ok (db.rows.filter (hasKey id))), db)
  | .insert property callback =>
    match formatError property with
    | some err => (.serverError err, db)
    | none =>
      match failure with
      | some err => (callback (.error err), db)
      | none =>
        match storeCols db.column property with
        | .error err => (callback (.error err), db)
        | .ok cols =>
          (callback (.ok { affectedRows := 1, insertId := db.nextId }),
           { db with rows := db.rows ++ [{ id := db.nextId, cols := cols }],
                     nextId := db.nextId + 1 })
  | .update property id callback =>
    match formatError property with
    | some err => (.serverError err, db)
    | none =>
      match failure with
      | some err => (callback (.error err), db)
      | none =>
        match db.rows.filter (hasKey id) with
        | [] => (callback (.ok { affectedRows := 0, insertId := 0 }), db)
        | first :: more =>
          match storeCols db.column property with
          | .error err => (callback (.error err), db)
          | .ok cols =>
            (callback (.ok { affectedRows := (first :: more).length, insertId := 0 }),
             { db with rows := db.rows.map fun r =>
                 if hasKey id r then { id := r.id, cols := cols } else r })
  | .delete id callback =>
    match failure with
    | some err => (callback (.error err), db)
    | none =>
      (callback (.ok { affectedRows := (db.rows.filter (hasKey id)).length, insertId := 0 }),
       { db with rows := db.rows.filter fun r => !hasKey id r })

/-- Modelled from the spec: the primary key of the table: no two rows share an `id`,
and every stored `id` is below the `AUTO_INCREMENT` counter. -/
def Db.WellFormed {N : Type} (db : Db N) : Prop :=
  (db.rows.map Row.id).Nodup ∧ ∀ r ∈ db.rows, r.id < db.nextId

/-- The table before any request: no rows, the counter at its first key. -/
def emptyDb {N : Type} (column : ColumnWrite N) : Db N :=
  { rows := [], nextId := 1, column := column }

/-! ## Start-up -/

/-- The process as the start-up script leaves it. -/
structure Process where
  /-- The port `app.listen` was called with, once it has been called. -/
  listening : Option Nat
  /-- The statements sent over the connection. -/
  queries : List String
  /-- What was written to the console by the provisioning callbacks. -/
  console : List String
  /-- The error thrown out of a callback, which ends the process. -/
  uncaught : Option String

/-- The text of `createTableQuery`, lines 26-39. -/
def createTableQuery : String :=
  "CREATE TABLE IF NOT EXISTS properties (id INT PRIMARY KEY AUTO_INCREMENT, " ++
  "location VARCHAR(100), square_meters DECIMAL(10, 2), " ++
  "price_per_square_meter DECIMAL(10, 2), total_price DECIMAL(10, 2), " ++
  "owner VARCHAR(50), country VARCHAR(50), region VARCHAR(50), " ++
  "province VARCHAR(50), district VARCHAR(50))"

/-- The module body, lines 1-343, run top to bottom: `connection.connect` and the
route registrations only register callbacks; the last statement, `app.listen(3000,
...)`, is reached whatever happens to the connection later. -/
def moduleBody : Process :=
  { listening := some 3000, queries := [], console := [], uncaught := none }

/-- Callback of `connection.query(createTableQuery, ...)`, lines 41-44. -/
def createTableCallback (err : Option String) (p : Process) : Process :=
  match err with
  | some e => { p with uncaught := some e }
  | none =>
    { p with console := p.console ++ ["Connected to MySQL and ensured properties table exists"] }

/-- Callback of `connection.connect`, lines 20-45; `createTable` is what the engine
answers to the `CREATE TABLE` statement if it is sent. -/
def connectCallback (err : Option String) (createTable : Option String) (p : Process) :
    Process :=
  match err with
  | some stack => { p with console := p.console ++ ["Error connecting to db " ++ stack] }
  | none => createTableCallback createTable { p with queries := p.queries ++ [createTableQuery] }

/-- Start-up: the module body runs to its end, then the connection reports, and the
`CREATE TABLE` statement if sent. -/
def startup (connectErr createTableErr : Option String) : Process :=
  connectCallback connectErr createTableErr moduleBody

/-! ## IEEE 754 binary64 numbers -/

/-- A JavaScript number: `NaN`, an infinity, or the finite value `(-1)^neg * m *
2^e`. The binary64 values are the finite ones with `m < 2^53` and `-1074 ≤ e ≤
971`; the operations below return them in normal form (`2^52 ≤ m`, or `e = -1074`
for zero and the subnormal values). -/
inductive Double where
  | nan
  | inf (neg : Bool)
  | fin (neg : Bool) (m : Nat) (e : Int)
  deriving DecidableEq

/-- The number of binary digits of `n`, by halving at most `fuel` times. -/
def bitLengthAux : Nat → Nat → Nat
  | 0, _ => 0
  | fuel + 1, n => if n = 0 then 0 else bitLengthAux fuel (n / 2) + 1

/-- The number of binary digits of `n` (`0` for `0`). -/
def bitLength (n : Nat) : Nat :=
  bitLengthAux n n

/-- The last step of rounding: a mantissa that was rounded up to `2^53` moves to the
next exponent, and a value above the largest exponent overflows to infinity. -/
def Double.pack (neg : Bool) (q : Nat) (e : Int) : Double :=
  if q = 2 ^ 53 then
    (if 971 < e + 1 then .inf neg else .fin neg (2 ^ 52) (e + 1))
  else if 971 < e then .inf neg else .fin neg q e

/-- The binary64 value nearest to `(-1)^neg * M * 2^E`, ties to the even mantissa
(IEEE 754 `roundTiesToEven`). With `s` the larger of `bitLength M - 53` and
`-1074 - E`, the mantissa is `M` shifted by `s` binary places: for `s = k ≥ 0` the
`k` low digits are dropped and decide the rounding (above half: up; exactly half:
to even); for `s < 0` the value is exact. -/
def Double.round (neg : Bool) (M : Nat) (E : Int) : Double :=
  if M = 0 then .fin neg 0 (-1074)
  else
    match max ((bitLength M : Int) - 53) (-1074 - E) with
    | Int.ofNat k =>
      let q := M / 2 ^ k
      let r := M % 2 ^ k
      if 2 ^ k < 2 * r ∨ (2 * r = 2 ^ k ∧ q % 2 = 1) then Double.pack neg (q + 1) (E + k)
      else Double.pack neg q (E + k)
    | Int.negSucc k => Double.pack neg (M * 2 ^ (k + 1)) (E - (k + 1))

/-- The operation `Number::multiply`: `NaN` if an operand is `NaN` or for infinity
times zero; an infinity times anything else is an infinity; the product of finite
values is their exact product rounded to the nearest binary64 value. The sign is
the exclusive or of the signs. -/
def Double.mul : Double → Double → Double
  | .nan, _ => .nan
  | _, .nan => .nan
  | .inf a, .inf b => .inf (xor a b)
  | .inf a, .fin b m _ => if m = 0 then .nan else .inf (xor a b)
  | .fin a m _, .inf b => if m = 0 then .nan else .inf (xor a b)
  | .fin a m₁ e₁, .fin b m₂ e₂ => Double.round (xor a b) (m₁ * m₂) (e₁ + e₂)

/-- The rational value of a finite number. -/
def Double.toRat : Double → Option ℚ
  | .fin neg m e => some ((if neg then -1 else 1) * (m : ℚ) * (2 : ℚ) ^ e)
  | _ => none

/-- The product of the values of two numbers in the rationals, when both are
finite. -/
def Double.exactProduct (x y : Double) : Option ℚ :=
  match x.toRat, y.toRat with
  | some a, some b => some (a * b)
  | _, _ => none

/-- Whether the triple is within the binary64 format. -/
def Double.isBinary64 : Double → Bool
  | .fin _ m e => decide (m < 2 ^ 53) && decide (-1074 ≤ e) && decide (e ≤ 971)
  | _ => true

/-- The binary64 value of a natural number (nearest, for one above `2^53`). -/
def Double.ofNat (n : Nat) : Double :=
  Double.round false n 0

/-- The runtime's numbers as binary64 values; the two string conversions, which the
product of two numbers does not use, stay parameters. -/
def doubleOps (ofString : String → Double) (toString : Double → String) :
    NumberOps Double where
  nan := .nan
  zero := .fin false 0 (-1074)
  one := Double.ofNat 1
  mul := Double.mul
  ofString := ofString
  toString := toString

/-! ## Concrete requests and tables -/

/-- The characters `StringToNumber` strips from both ends (`StrWhiteSpaceChar`). -/
def isStrWhiteSpace (c : Char) : Bool :=
  let n := c.toNat
  n == 0x09 || n == 0x0A || n == 0x0B || n == 0x0C || n == 0x0D || n == 0x20 ||
  n == 0xA0 || n == 0x1680 || (decide (0x2000 ≤ n) && decide (n ≤ 0x200A)) ||
  n == 0x2028 || n == 0x2029 || n == 0x202F || n == 0x205F || n == 0x3000 ||
  n == 0xFEFF

/-- The value of a non-empty run of decimal digits. -/
def decimalDigits : List Char → Nat → Option Nat
  | [], acc => some acc
  | c :: cs, acc =>
    if c.isDigit then decimalDigits cs (acc * 10 + (c.toNat - 48)) else none

/-- Reading a string as a number, for strings without fraction or exponent: after
trimming, the empty string is `+0`; decimal digits with an optional sign are the
nearest binary64 value (`-0` for `-0`); anything else is `NaN`. It agrees with
`StringToNumber` on those strings and on strings that are no numeric literal; the
other numeric literals (a fraction, an exponent, a radix marker, `Infinity`) are
not covered and read as `NaN` here. -/
def integerOfString (s : String) : Double :=
  match ((s.data.dropWhile isStrWhiteSpace).reverse.dropWhile isStrWhiteSpace).reverse with
  | [] => .fin false 0 (-1074)
  | '-' :: c :: cs =>
    match decimalDigits (c :: cs) 0 with
    | some n => Double.round true n 0
    | none => .nan
  | '+' :: c :: cs =>
    match decimalDigits (c :: cs) 0 with
    | some n => Double.round false n 0
    | none => .nan
  | c :: cs =>
    match decimalDigits (c :: cs) 0 with
    | some n => Double.round false n 0
    | none => .nan

/-- The integer a finite number is, if it is one. -/
def Double.toNat? : Double → Option Nat
  | .fin _ m e =>
    match e with
    | Int.ofNat k => some (m * 2 ^ k)
    | Int.negSucc k => if m % 2 ^ (k + 1) = 0 then some (m / 2 ^ (k + 1)) else none
  | _ => none

/-- Printing a number, for `NaN`, the infinities and the integers of magnitude
below `2^53`, where it agrees with `Number::toString`; other numbers are not
covered and print as `NaN` here. -/
def integerToString : Double → String
  | .nan => "NaN"
  | .inf false => "Infinity"
  | .inf true => "-Infinity"
  | .fin neg m e =>
    match (Double.fin neg m e).toNat? with
    | some n =>
      if n = 0 then "0"
      else if 2 ^ 53 ≤ n then "NaN"
      else if neg then "-" ++ toString n else toString n
    | none => "NaN"

/-- The runtime's numbers with the two string conversions above: it only serves to
run the handlers on concrete requests whose numbers are written out as binary64
values. -/
def jsOps : NumberOps Double :=
  doubleOps integerOfString integerToString

/-- A table in strict SQL mode, on the values its columns keep unchanged: a `VARCHAR`
column keeps a string within its length and refuses a longer one; a `DECIMAL(d, s)`
column keeps an integer of magnitude below `10^(d-s)` (zero as `+0`) and refuses
`NaN`, the infinities and a larger value. Values MySQL would convert (a fraction to
be rounded, a number for a text column, a string for a decimal one, a boolean) are
not covered: this table refuses them. -/
def strictColumn : ColumnWrite Double
  | .varchar length, .str s =>
    if s.length ≤ length then .ok (.str s) else .error "ER_DATA_TOO_LONG"
  | .decimal digits scale, .num (.fin neg m e) =>
    match (Double.fin neg m e).toNat? with
    | some n =>
      if n = 0 then .ok (.num (.fin false 0 (-1074)))
      else if n < 10 ^ (digits - scale) then .ok (.num (Double.round neg n 0))
      else .error "ER_WARN_DATA_OUT_OF_RANGE"
    | none => .error "not covered: a fraction"
  | .decimal _ _, .num _ => .error "ER_BAD_FIELD_ERROR"
  | _, _ => .error "not covered: a value of another type"

/-- The request body of the Berlin scenario. -/
def berlin : JsObj Double :=
  [("location", .str "Berlin"), ("square_meters", .num (Double.ofNat 50)),
   ("price_per_square_meter", .num (Double.ofNat 3000)), ("owner", .str "A"),
   ("country", .str "DE"), ("region", .str "Berlin"), ("province", .str "Berlin"),
   ("district", .str "Mitte")]

/-- The row payload of the Berlin scenario. -/
def berlinProperty : Property Double :=
  { location := .str "Berlin", square_meters := .num (Double.ofNat 50),
    price_per_square_meter := .num (Double.ofNat 3000),
    total_price := .num (Double.ofNat 150000), owner := .str "A", country := .str "DE",
    region := .str "Berlin", province := .str "Berlin", district := .str "Mitte" }

/-- The Berlin body with a `total_price`, an `id` and one more key supplied by the
caller. -/
def berlinForged : JsObj Double :=
  [("id", .num (Double.ofNat 7)), ("total_price", .num (Double.ofNat 1))] ++ berlin ++
  [("admin", .bool true)]

/-- The table after the Berlin create on the empty strict table. -/
def berlinDb : Db Double :=
  ((emptyDb strictColumn).run none (postProperties jsOps berlin)).2

/-- The Berlin body with owner `B` and with `square_meters` the JSON object
`{"toString": 0}`: all eight fields are present, and the object has no primitive
value. -/
def berlinUnconvertible : JsObj Double :=
  [("location", .str "Berlin"),
   ("square_meters", .obj [("toString", .num (.fin false 0 (-1074)))]),
   ("price_per_square_meter", .num (Double.ofNat 3000)), ("owner", .str "B"),
   ("country", .str "DE"), ("region", .str "Berlin"), ("province", .str "Berlin"),
   ("district", .str "Mitte")]

/-- An update of the Berlin property: a new owner, a larger area, and no `district`
in the body. -/
def berlinResold : JsObj Double :=
  [("location", .str "Berlin"), ("square_meters", .num (Double.ofNat 60)),
   ("price_per_square_meter", .num (Double.ofNat 3000)), ("owner", .str "B"),
   ("country", .str "DE"), ("region", .str "Berlin"), ("province", .str "Berlin")]

/-- A request body whose `square_meters` is a string that is no number. -/
def notNumeric : JsObj Double :=
  [("location", .str "Berlin"), ("square_meters", .str "abc"),
   ("price_per_square_meter", .num (Double.ofNat 3000))]

/-- The binary64 value nearest to the decimal `0.1`, which is what the JSON literal
`0.1` denotes: `7205759403792794 * 2^-56`. -/
def tenth : Double :=
  .fin false 7205759403792794 (-56)

/-- A request body with `price_per_square_meter` 0.1 and `square_meters` 3. -/
def tenthBody : JsObj Double :=
  [("square_meters", .num (Double.ofNat 3)), ("price_per_square_meter", .num tenth)]

/-! ## Lemmas on the storage model -/

theorem hasKey_iff {N : Type} (id : String) (r : Row N) :
    hasKey id r = true ↔ keyOf id = some r.id := by
  simp [hasKey]

theorem hasKey_eq_false_iff {N : Type} (id : String) (r : Row N) :
    hasKey id r = false ↔ keyOf id ≠ some r.id := by
  simp [hasKey]

theorem filter_hasKey_eq_nil {N : Type} (id : String) (rows : List (Row N)) :
    rows.filter (hasKey id) = [] ↔ ∀ r ∈ rows, keyOf id ≠ some r.id := by
  simp [List.filter_eq_nil_iff, hasKey]

theorem filter_hasKey_eq_singleton {N : Type} (id : String) (rows : List (Row N))
    (hnd : (rows.map Row.id).Nodup) (r : Row N) (hr : r ∈ rows)
    (hk : keyOf id = some r.id) : rows.filter (hasKey id) = [r] := by
  induction rows with
  | nil => cases hr
  | cons x xs ih =>
    rw [List.map_cons, List.nodup_cons] at hnd
    obtain ⟨hx, hxs⟩ := hnd
    rcases List.mem_cons.1 hr with rfl | hmem
    · have hnil : xs.filter (hasKey id) = [] := by
        rw [filter_hasKey_eq_nil]
        intro y hy hyk
        apply hx
        have : y.id = r.id := by
          rw [hk] at hyk
          exact (Option.some.inj hyk).symm
        rw [← this]
        exact List.mem_map_of_mem Row.id hy
      rw [List.filter_cons_of_pos ((hasKey_iff id r).2 hk), hnil]
    · have hne : hasKey id x = false := by
        rw [hasKey_eq_false_iff]
        intro hxk
        apply hx
        have : x.id = r.id := by
          rw [hk] at hxk
          exact (Option.some.inj hxk).symm
        rw [this]
        exact List.mem_map_of_mem Row.id hmem
      rw [List.filter_cons_of_neg (by simp [hne])]
      exact ih hxs hmem

theorem filter_hasKey_ne_nil {N : Type} (id : String) (rows : List (Row N))
    (h : ∃ r ∈ rows, keyOf id = some r.id) : rows.filter (hasKey id) ≠ [] := by
  obtain ⟨r, hr, hk⟩ := h
  intro hnil
  exact (filter_hasKey_eq_nil id rows).1 hnil r hr hk

theorem emptyDb_wellFormed {N : Type} (column : ColumnWrite N) :
    (emptyDb column).WellFormed := by
  simp [Db.WellFormed, emptyDb]

/-- What a successful `SET ?` wrote, column by column. -/
theorem storeCols_eq_ok {N : Type} (column : ColumnWrite N) (p stored : Property N)
    (h : storeCols column p = .ok stored) :
    toColumn column (.varchar 100) p.location = .ok stored.location ∧
    toColumn column (.decimal 10 2) p.square_meters = .ok stored.square_meters ∧
    toColumn column (.decimal 10 2) p.price_per_square_meter =
      .ok stored.price_per_square_meter ∧
    toColumn column (.decimal 10 2) p.total_price = .ok stored.total_price ∧
    toColumn column (.varchar 50) p.owner = .ok stored.owner ∧
    toColumn column (.varchar 50) p.country = .ok stored.country ∧
    toColumn column (.varchar 50) p.region = .ok stored.region ∧
    toColumn column (.varchar 50) p.province = .ok stored.province ∧
    toColumn column (.varchar 50) p.district = .ok stored.district := by
  unfold storeCols at h
  cases h1 : toColumn column (.varchar 100) p.location <;>
  cases h2 : toColumn column (.decimal 10 2) p.square_meters <;>
  cases h3 : toColumn column (.decimal 10 2) p.price_per_square_meter <;>
  cases h4 : toColumn column (.decimal 10 2) p.total_price <;>
  cases h5 : toColumn column (.varchar 50) p.owner <;>
  cases h6 : toColumn column (.varchar 50) p.country <;>
  cases h7 : toColumn column (.varchar 50) p.region <;>
  cases h8 : toColumn column (.varchar 50) p.province <;>
  cases h9 : toColumn column (.varchar 50) p.district <;>
  simp only [h1, h2, h3, h4, h5, h6, h7, h8, h9, bind, Except.bind, pure, Except.pure,
    reduceCtorEq] at h
  cases h
  exact ⟨rfl, rfl, rfl, rfl, rfl, rfl, rfl, rfl, rfl⟩

/-- What `buildProperty` built, when the multiplication did not throw. -/
theorem buildProperty_eq_ok {N : Type} (ops : NumberOps N) (body : JsObj N)
    (p : Property N) (h : buildProperty ops body = .ok p) :
    ∃ x y : N,
      (body.get "price_per_square_meter").toNumber ops = .ok x ∧
      (body.get "square_meters").toNumber ops = .ok y ∧
      p = { location := body.get "location", square_meters := body.get "square_meters",
            price_per_square_meter := body.get "price_per_square_meter",
            total_price := .num (ops.mul x y), owner := body.get "owner",
            country := body.get "country", region := body.get "region",
            province := body.get "province", district := body.get "district" } := by
  unfold buildProperty jsMul at h
  cases hx : (body.get "price_per_square_meter").toNumber ops with
  | error e => simp [hx] at h
  | ok x =>
    cases hy : (body.get "square_meters").toNumber ops with
    | error e => simp [hx, hy] at h
    | ok y =>
      simp only [hx, hy] at h
      exact ⟨x, y, rfl, rfl, (Except.ok.inj h).symm⟩

/-- The primary key is an invariant of the storage model: every request keeps the
keys distinct and below the counter. -/
theorem Db.WellFormed.run {N : Type} {db : Db N} (hwf : db.WellFormed)
    (failure : Option String) (a : Action N) : (db.run failure a).2.WellFormed := by
  obtain ⟨hnd, hlt⟩ := hwf
  cases a with
  | raise err => exact ⟨hnd, hlt⟩
  | selectAll callback => cases failure <;> exact ⟨hnd, hlt⟩
  | selectById id callback => cases failure <;> exact ⟨hnd, hlt⟩
  | insert property callback =>
    simp only [Db.run]
    cases formatError property with
    | some err => exact ⟨hnd, hlt⟩
    | none =>
      cases failure with
      | some err => exact ⟨hnd, hlt⟩
      | none =>
        cases storeCols db.column property with
        | error err => exact ⟨hnd, hlt⟩
        | ok cols =>
          refine ⟨?_, ?_⟩
          · simp only [List.map_append, List.map_cons, List.map_nil]
            rw [List.nodup_append]
            refine ⟨hnd, List.nodup_singleton _, ?_⟩
            intro k hk hk'
            rw [List.mem_singleton] at hk'
            obtain ⟨r, hr, rfl⟩ := List.mem_map.1 hk
            exact absurd hk' (Nat.ne_of_lt (hlt r hr))
          · intro r hr
            simp only [List.mem_append, List.mem_singleton] at hr ⊢
            rcases hr with hr | rfl
            · exact Nat.lt_succ_of_lt (hlt r hr)
            · exact Nat.lt_succ_self _
  | update property id callback =>
    simp only [Db.run]
    cases formatError property with
    | some err => exact ⟨hnd, hlt⟩
    | none =>
      cases failure with
      | some err => exact ⟨hnd, hlt⟩
      | none =>
        cases db.rows.filter (hasKey id) with
        | nil => exact ⟨hnd, hlt⟩
        | cons first more =>
          cases storeCols db.column property with
          | error err => exact ⟨hnd, hlt⟩
          | ok cols =>
            have hids : (db.rows.map fun r =>
                if hasKey id r then ({ id := r.id, cols := cols } : Row N)
                else r).map Row.id = db.rows.map Row.id := by
              rw [List.map_map]
              apply List.map_congr_left
              intro r _
              simp only [Function.comp]
              split <;> rfl
            refine ⟨?_, ?_⟩
            · simp only
              rw [hids]
              exact hnd
            · intro r hr
              simp only at hr ⊢
              obtain ⟨x, hx, rfl⟩ := List.mem_map.1 hr
              split
              · exact hlt x hx
              · exact hlt x hx
  | delete id callback =>
    cases failure with
    | some err => exact ⟨hnd, hlt⟩
    | none =>
      refine ⟨?_, ?_⟩
      · simp only [Db.run]
        exact hnd.sublist (List.Sublist.map _ (List.filter_sublist _))
      · intro r hr
        simp only [Db.run] at hr ⊢
        exact hlt r (List.mem_filter.1 hr).1

/-! ## Lemmas on binary64 rounding -/

theorem bitLengthAux_zero (fuel : Nat) : bitLengthAux fuel 0 = 0 := by
  cases fuel <;> simp [bitLengthAux]

theorem bitLengthAux_spec (fuel n : Nat) (hle : n ≤ fuel) (hn : n ≠ 0) :
    1 ≤ bitLengthAux fuel n ∧ 2 ^ (bitLengthAux fuel n - 1) ≤ n ∧
      n < 2 ^ bitLengthAux fuel n := by
  induction fuel generalizing n with
  | zero => omega
  | succ fuel ih =>
    simp only [bitLengthAux, if_neg hn]
    by_cases h2 : n / 2 = 0
    · rw [h2, bitLengthAux_zero]
      have : n = 1 := by omega
      subst this
      simp
    · obtain ⟨h1, hlo, hhi⟩ := ih (n / 2) (by omega) h2
      refine ⟨by omega, ?_, ?_⟩
      · have : 2 ^ (bitLengthAux fuel (n / 2) + 1 - 1) =
            2 * 2 ^ (bitLengthAux fuel (n / 2) - 1) := by
          rw [Nat.add_sub_cancel, ← Nat.pow_succ']
          congr 1
          omega
        rw [this]
        omega
      · rw [Nat.pow_succ]
        omega

/-- A number other than zero lies between the powers of two its bit length names. -/
theorem bitLength_spec (n : Nat) (hn : n ≠ 0) :
    1 ≤ bitLength n ∧ 2 ^ (bitLength n - 1) ≤ n ∧ n < 2 ^ bitLength n :=
  bitLengthAux_spec n n (Nat.le_refl n) hn

theorem lt_of_two_pow_lt {a b : Nat} (h : 2 ^ a < 2 ^ b) : a < b :=
  (Nat.pow_lt_pow_iff_right (by norm_num)).1 h

/-- An equation between two dyadic values, in the natural numbers. -/
theorem dyadic_eq (M m : Nat) (E e : Int) (hval : (M : ℚ) * 2 ^ E = (m : ℚ) * 2 ^ e) :
    (E ≤ e → M = m * 2 ^ (e - E).toNat) ∧ (e ≤ E → m = M * 2 ^ (E - e).toNat) := by
  have h2 : (2 : ℚ) ≠ 0 := by norm_num
  constructor
  · intro h
    have hj : e = E + ((e - E).toNat : ℤ) := by omega
    have : (M : ℚ) * 2 ^ E = (m : ℚ) * 2 ^ (e - E).toNat * 2 ^ E := by
      rw [hval]
      conv_lhs => rw [hj, zpow_add₀ h2, zpow_natCast]
      ring
    have h3 := mul_right_cancel₀ (zpow_ne_zero E h2) this
    exact_mod_cast h3
  · intro h
    have hj : E = e + ((E - e).toNat : ℤ) := by omega
    have : (m : ℚ) * 2 ^ e = (M : ℚ) * 2 ^ (E - e).toNat * 2 ^ e := by
      rw [← hval]
      conv_lhs => rw [hj, zpow_add₀ h2, zpow_natCast]
      ring
    have h3 := mul_right_cancel₀ (zpow_ne_zero e h2) this
    exact_mod_cast h3

/-- The bit length of a value that fits 53 digits at exponent `e` is bounded by the
distance of the exponents. -/
theorem bitLength_le_of_dyadic_eq (M m : Nat) (E e : Int) (hM : M ≠ 0) (hm : m < 2 ^ 53)
    (hval : (M : ℚ) * 2 ^ E = (m : ℚ) * 2 ^ e) : (bitLength M : Int) - 53 ≤ e - E := by
  obtain ⟨hb1, hlo, hhi⟩ := bitLength_spec M hM
  obtain ⟨hB, hA⟩ := dyadic_eq M m E e hval
  rcases le_total E e with h | h
  · have hMm := hB h
    have : 2 ^ (bitLength M - 1) < 2 ^ (53 + (e - E).toNat) := by
      calc 2 ^ (bitLength M - 1) ≤ M := hlo
        _ = m * 2 ^ (e - E).toNat := hMm
        _ < 2 ^ 53 * 2 ^ (e - E).toNat := Nat.mul_lt_mul_of_pos_right hm (by positivity)
        _ = 2 ^ (53 + (e - E).toNat) := (pow_add 2 _ _).symm
    have := lt_of_two_pow_lt this
    omega
  · have hmM := hA h
    have : 2 ^ (bitLength M - 1 + (E - e).toNat) < 2 ^ 53 := by
      calc 2 ^ (bitLength M - 1 + (E - e).toNat)
            = 2 ^ (bitLength M - 1) * 2 ^ (E - e).toNat := pow_add 2 _ _
        _ ≤ M * 2 ^ (E - e).toNat := Nat.mul_le_mul_right _ hlo
        _ = m := hmM.symm
        _ < 2 ^ 53 := hm
    have := lt_of_two_pow_lt this
    omega

theorem Double.pack_of_lt (neg : Bool) (q : Nat) (e : Int) (hq : q < 2 ^ 53)
    (he : e ≤ 971) : Double.pack neg q e = .fin neg q e := by
  unfold Double.pack
  rw [if_neg (Nat.ne_of_lt hq), if_neg (by omega)]

theorem Double.pack_isBinary64 (neg : Bool) (q : Nat) (e : Int) (hq : q ≤ 2 ^ 53)
    (he : -1074 ≤ e) : (Double.pack neg q e).isBinary64 = true := by
  unfold Double.pack
  split
  · split
    · rfl
    · simp only [Double.isBinary64, Bool.and_eq_true, decide_eq_true_eq]
      omega
  · split
    · rfl
    · simp only [Double.isBinary64, Bool.and_eq_true, decide_eq_true_eq]
      omega

/-- Rounding always lands in the binary64 format. -/
theorem Double.round_isBinary64 (neg : Bool) (M : Nat) (E : Int) :
    (Double.round neg M E).isBinary64 = true := by
  by_cases hM : M = 0
  · simp [Double.round, Double.isBinary64, hM]
  obtain ⟨hb1, hlo, hhi⟩ := bitLength_spec M hM
  unfold Double.round
  rw [if_neg hM]
  generalize hs : max ((bitLength M : Int) - 53) (-1074 - E) = s
  have hs1 : (bitLength M : Int) - 53 ≤ s := by omega
  have hs2 : -1074 - E ≤ s := by omega
  cases s with
  | ofNat k =>
    have hk : (Int.ofNat k : Int) = (k : Int) := rfl
    rw [hk] at hs1 hs2
    have hpos : 0 < 2 ^ k := by positivity
    have hq : M / 2 ^ k < 2 ^ 53 := by
      rw [Nat.div_lt_iff_lt_mul hpos, ← pow_add]
      exact lt_of_lt_of_le hhi (Nat.pow_le_pow_right (by norm_num) (by omega))
    simp only
    split
    · exact Double.pack_isBinary64 neg _ _ hq (by omega)
    · exact Double.pack_isBinary64 neg _ _ (Nat.le_of_lt hq) (by omega)
  | negSucc k =>
    have hk : (Int.negSucc k : Int) = -((k : Int) + 1) := rfl
    rw [hk] at hs1 hs2
    have hq : M * 2 ^ (k + 1) < 2 ^ 53 := by
      calc M * 2 ^ (k + 1) < 2 ^ bitLength M * 2 ^ (k + 1) :=
            Nat.mul_lt_mul_of_pos_right hhi (by positivity)
        _ = 2 ^ (bitLength M + (k + 1)) := (pow_add 2 _ _).symm
        _ ≤ 2 ^ 53 := Nat.pow_le_pow_right (by norm_num) (by omega)
    exact Double.pack_isBinary64 neg _ _ (Nat.le_of_lt hq) (by omega)

/-- Rounding is exact on a value that is within the binary64 format. -/
theorem Double.round_exact (neg : Bool) (M : Nat) (E : Int) (m : Nat) (e : Int)
    (hm : m < 2 ^ 53) (he₂ : e ≤ 971) (he₁ : -1074 ≤ e)
    (hval : (M : ℚ) * 2 ^ E = (m : ℚ) * 2 ^ e) :
    (Double.round neg M E).toRat = some ((if neg then -1 else 1) * (M : ℚ) * 2 ^ E) := by
  have h2 : (2 : ℚ) ≠ 0 := by norm_num
  by_cases hM : M = 0
  · simp [Double.round, Double.toRat, hM]
  obtain ⟨hb1, hlo, hhi⟩ := bitLength_spec M hM
  have hG := bitLength_le_of_dyadic_eq M m E e hM hm hval
  obtain ⟨hB, -⟩ := dyadic_eq M m E e hval
  unfold Double.round
  rw [if_neg hM]
  generalize hs : max ((bitLength M : Int) - 53) (-1074 - E) = s
  have hs1 : (bitLength M : Int) - 53 ≤ s := by omega
  have hs2 : s ≤ e - E := by omega
  cases s with
  | ofNat k =>
    have hk : (Int.ofNat k : Int) = (k : Int) := rfl
    rw [hk] at hs1 hs2 hs
    have hdvd : 2 ^ k ∣ M := by
      have hMm := hB (by omega)
      refine ⟨m * 2 ^ ((e - E).toNat - k), ?_⟩
      have hj : k + ((e - E).toNat - k) = (e - E).toNat := by omega
      calc M = m * 2 ^ (e - E).toNat := hMm
        _ = m * 2 ^ (k + ((e - E).toNat - k)) := by rw [hj]
        _ = 2 ^ k * (m * 2 ^ ((e - E).toNat - k)) := by rw [pow_add]; ring
    have hr : M % 2 ^ k = 0 := Nat.mod_eq_zero_of_dvd hdvd
    have hpos : 0 < 2 ^ k := by positivity
    have hcond : ¬ (2 ^ k < 2 * (M % 2 ^ k) ∨
        (2 * (M % 2 ^ k) = 2 ^ k ∧ M / 2 ^ k % 2 = 1)) := by
      rw [hr]
      omega
    simp only [if_neg hcond]
    have hq : M / 2 ^ k < 2 ^ 53 := by
      rw [Nat.div_lt_iff_lt_mul hpos, ← pow_add]
      exact lt_of_lt_of_le hhi (Nat.pow_le_pow_right (by norm_num) (by omega))
    rw [Double.pack_of_lt neg _ _ hq (by omega)]
    simp only [Double.toRat]
    congr 1
    have hMq : (M : ℚ) = ((M / 2 ^ k : Nat) : ℚ) * 2 ^ k := by
      have := Nat.div_mul_cancel hdvd
      exact_mod_cast this.symm
    conv_rhs => rw [hMq]
    rw [zpow_add₀ h2, zpow_natCast]
    ring
  | negSucc k =>
    have hk : (Int.negSucc k : Int) = -((k : Int) + 1) := rfl
    rw [hk] at hs1 hs2 hs
    simp only
    have hq : M * 2 ^ (k + 1) < 2 ^ 53 := by
      calc M * 2 ^ (k + 1) < 2 ^ bitLength M * 2 ^ (k + 1) :=
            Nat.mul_lt_mul_of_pos_right hhi (by positivity)
        _ = 2 ^ (bitLength M + (k + 1)) := (pow_add 2 _ _).symm
        _ ≤ 2 ^ 53 := Nat.pow_le_pow_right (by norm_num) (by omega)
    rw [Double.pack_of_lt neg _ _ hq (by omega)]
    simp only [Double.toRat]
    congr 1
    rw [zpow_sub₀ h2]
    push_cast
    have : ((2 : ℚ) ^ ((k : ℤ) + 1)) = 2 ^ (k + 1) := by
      rw [← zpow_natCast]
      norm_cast
    rw [this]
    field_simp
    split <;> ring

/-- A product is always within the binary64 format. -/
theorem Double.mul_isBinary64 (x y : Double) : (Double.mul x y).isBinary64 = true := by
  cases x <;> cases y <;> simp only [Double.mul] <;>
    first
    | rfl
    | exact Double.round_isBinary64 _ _ _
    | (split <;> rfl)

/-- The product of two numbers is their product in the rationals exactly when that
product is itself within the binary64 format. -/
theorem Double.mul_exact_iff (x y : Double) :
    (Double.mul x y).toRat = Double.exactProduct x y ↔
      ∃ d : Double, d.isBinary64 = true ∧ d.toRat = Double.exactProduct x y := by
  constructor
  · intro h
    exact ⟨Double.mul x y, Double.mul_isBinary64 x y, h⟩
  · rintro ⟨d, hd, hv⟩
    cases x with
    | nan => cases y <;> rfl
    | inf a =>
      cases y with
      | nan => rfl
      | inf b => rfl
      | fin b m e =>
        simp only [Double.mul]
        split <;> rfl
    | fin a mx ex =>
      cases y with
      | nan => rfl
      | inf b =>
        simp only [Double.mul]
        split <;> rfl
      | fin b my ey =>
        cases d with
        | nan => simp [Double.toRat, Double.exactProduct] at hv
        | inf c => simp [Double.toRat, Double.exactProduct] at hv
        | fin c m e =>
          simp only [Double.isBinary64, Bool.and_eq_true, decide_eq_true_eq] at hd
          obtain ⟨⟨hm, he₁⟩, he₂⟩ := hd
          simp only [Double.toRat, Double.exactProduct, Option.some.injEq] at hv
          have h2 : (2 : ℚ) ≠ 0 := by norm_num
          have hP : (0 : ℚ) ≤ (m : ℚ) * 2 ^ e := by positivity
          have hQ : (0 : ℚ) ≤ (mx : ℚ) * 2 ^ ex * ((my : ℚ) * 2 ^ ey) := by positivity
          have hval : ((mx * my : Nat) : ℚ) * 2 ^ (ex + ey) = (m : ℚ) * 2 ^ e := by
            rw [zpow_add₀ h2]
            push_cast
            cases c <;> cases a <;> cases b <;> simp at hv <;> linarith
          have hmul : Double.mul (.fin a mx ex) (.fin b my ey) =
              Double.round (xor a b) (mx * my) (ex + ey) := rfl
          rw [hmul, Double.round_exact (xor a b) (mx * my) (ex + ey) m e hm he₂ he₁ hval]
          simp only [Double.exactProduct, Double.toRat]
          congr 1
          rw [zpow_add₀ h2]
          push_cast
          cases a <;> cases b <;> simp <;> ring

theorem Double.pack_eq_fin (neg : Bool) (q' : Nat) (e' : Int) (n : Bool) (q : Nat)
    (e : Int) (h : Double.pack neg q' e' = .fin n q e) :
    (q : ℚ) * 2 ^ e = (q' : ℚ) * 2 ^ e' ∧ n = neg := by
  have h2 : (2 : ℚ) ≠ 0 := by norm_num
  unfold Double.pack at h
  split at h
  · rename_i hq
    split at h
    · cases h
    · cases h
      refine ⟨?_, rfl⟩
      rw [hq, zpow_add₀ h2]
      norm_num
      ring
  · split at h
    · cases h
    · cases h
      exact ⟨rfl, rfl⟩

/-- Rounding gives a nearest value of the format: no value `m * 2^e` with `m <
2^53` and `-1074 ≤ e` is nearer to the rounded one. -/
theorem Double.round_nearest (neg : Bool) (M : Nat) (E : Int) (n : Bool) (q : Nat)
    (e : Int) (h : Double.round neg M E = .fin n q e) (m : Nat) (e₀ : Int)
    (hm : m < 2 ^ 53) (he₀ : -1074 ≤ e₀) :
    |(q : ℚ) * 2 ^ e - (M : ℚ) * 2 ^ E| ≤ |(m : ℚ) * 2 ^ e₀ - (M : ℚ) * 2 ^ E| := by
  have h2 : (2 : ℚ) ≠ 0 := by norm_num
  by_cases hM : M = 0
  · subst hM
    simp only [Double.round, if_true] at h
    cases h
    simp
  obtain ⟨hb1, hlo, hhi⟩ := bitLength_spec M hM
  unfold Double.round at h
  rw [if_neg hM] at h
  generalize hs : max ((bitLength M : Int) - 53) (-1074 - E) = s at h
  have hs1 : (bitLength M : Int) - 53 ≤ s := by omega
  have hs2 : -1074 - E ≤ s := by omega
  have hs3 : s = (bitLength M : Int) - 53 ∨ s = -1074 - E := by omega
  have hA : (0 : ℚ) < 2 ^ E := by positivity
  cases s with
  | negSucc k =>
    have hk : (Int.negSucc k : Int) = -((k : Int) + 1) := rfl
    simp only at h
    obtain ⟨hv, -⟩ := Double.pack_eq_fin _ _ _ _ _ _ h
    have : (q : ℚ) * 2 ^ e = (M : ℚ) * 2 ^ E := by
      rw [hv, zpow_sub₀ h2]
      push_cast
      have : ((2 : ℚ) ^ ((k : ℤ) + 1)) = 2 ^ (k + 1) := by
        rw [← zpow_natCast]
        norm_cast
      rw [this]
      field_simp
      ring
    rw [this, sub_self, abs_zero]
    exact abs_nonneg _
  | ofNat k =>
    have hk : (Int.ofNat k : Int) = (k : Int) := rfl
    rw [hk] at hs1 hs2 hs3
    simp only [hk] at h
    have hdm : 2 ^ k * (M / 2 ^ k) + M % 2 ^ k = M := Nat.div_add_mod M (2 ^ k)
    have hRlt : M % 2 ^ k < 2 ^ k := Nat.mod_lt _ (by positivity)
    -- rational names
    set Q : ℚ := ((M / 2 ^ k : Nat) : ℚ) with hQ
    set R : ℚ := ((M % 2 ^ k : Nat) : ℚ) with hR
    set K : ℚ := (2 : ℚ) ^ k with hK
    set A : ℚ := (2 : ℚ) ^ E with hAdef
    have hKpos : 0 < K := by positivity
    have hMQ : (M : ℚ) = K * Q + R := by
      have : ((2 ^ k * (M / 2 ^ k) + M % 2 ^ k : Nat) : ℚ) = (M : ℚ) := by rw [hdm]
      rw [← this]
      push_cast
      rfl
    have hR0 : 0 ≤ R := Nat.cast_nonneg _
    have hRK : R < K := by
      have : ((M % 2 ^ k : Nat) : ℚ) < ((2 ^ k : Nat) : ℚ) := Nat.cast_lt.2 hRlt
      simpa [hR, hK] using this
    have hEk : (2 : ℚ) ^ (E + (k : ℤ)) = A * K := by
      rw [zpow_add₀ h2, zpow_natCast]
    -- the error of the chosen mantissa
    have herr : ∃ q' : ℚ, (q : ℚ) * 2 ^ e = q' * (A * K) ∧
        ((q' = Q ∧ 2 * R ≤ K) ∨ (q' = Q + 1 ∧ K ≤ 2 * R)) := by
      split at h
      · rename_i hup
        obtain ⟨hv, -⟩ := Double.pack_eq_fin _ _ _ _ _ _ h
        refine ⟨Q + 1, ?_, Or.inr ⟨rfl, ?_⟩⟩
        · rw [hv, hEk]
          push_cast
          rfl
        · have hnat : 2 ^ k ≤ 2 * (M % 2 ^ k) := by omega
          have : ((2 ^ k : Nat) : ℚ) ≤ ((2 * (M % 2 ^ k) : Nat) : ℚ) := Nat.cast_le.2 hnat
          simpa [hR, hK] using this
      · rename_i hup
        obtain ⟨hv, -⟩ := Double.pack_eq_fin _ _ _ _ _ _ h
        refine ⟨Q, ?_, Or.inl ⟨rfl, ?_⟩⟩
        · rw [hv, hEk]
        · have hnat : 2 * (M % 2 ^ k) ≤ 2 ^ k := by omega
          have : ((2 * (M % 2 ^ k) : Nat) : ℚ) ≤ ((2 ^ k : Nat) : ℚ) := Nat.cast_le.2 hnat
          simpa [hR, hK] using this
    obtain ⟨q', hq', hchoice⟩ := herr
    have hlhs : |(q : ℚ) * 2 ^ e - (M : ℚ) * A| = A * |q' * K - (K * Q + R)| := by
      rw [hq', hMQ, ← abs_of_pos hA, ← abs_mul, abs_of_pos hA]
      congr 1
      ring
    rw [hlhs]
    have herrle : |q' * K - (K * Q + R)| ≤ R ∧ |q' * K - (K * Q + R)| ≤ K - R := by
      rcases hchoice with ⟨rfl, hle⟩ | ⟨rfl, hle⟩
      · have : Q * K - (K * Q + R) = -R := by ring
        rw [this, abs_neg, abs_of_nonneg hR0]
        constructor <;> linarith
      · have : (Q + 1) * K - (K * Q + R) = K - R := by ring
        rw [this, abs_of_nonneg (by linarith)]
        constructor <;> linarith
    rcases le_or_lt (E + (k : ℤ)) e₀ with hcase | hcase
    · -- the other value is a multiple of the same unit
      obtain ⟨j, hj⟩ : ∃ j : Nat, e₀ = E + (k : ℤ) + (j : ℤ) := ⟨(e₀ - E - k).toNat, by omega⟩
      have hd : (m : ℚ) * 2 ^ e₀ = ((m * 2 ^ j : Nat) : ℚ) * (A * K) := by
        rw [hj, zpow_add₀ h2, hEk, zpow_natCast]
        push_cast
        ring
      rw [hd, hMQ]
      have hrhs : |((m * 2 ^ j : Nat) : ℚ) * (A * K) - (K * Q + R) * A| =
          A * |((m * 2 ^ j : Nat) : ℚ) * K - (K * Q + R)| := by
        rw [← abs_of_pos hA, ← abs_mul, abs_of_pos hA]
        congr 1
        ring
      rw [hrhs]
      apply mul_le_mul_of_nonneg_left _ (le_of_lt hA)
      rcases Nat.lt_or_ge (M / 2 ^ k) (m * 2 ^ j) with hn | hn
      · have hnq : Q + 1 ≤ ((m * 2 ^ j : Nat) : ℚ) := by
          have : ((M / 2 ^ k + 1 : Nat) : ℚ) ≤ ((m * 2 ^ j : Nat) : ℚ) := Nat.cast_le.2 hn
          simpa [hQ] using this
        have : K - R ≤ ((m * 2 ^ j : Nat) : ℚ) * K - (K * Q + R) := by nlinarith
        exact le_trans herrle.2 (le_trans this (le_abs_self _))
      · have hnq : ((m * 2 ^ j : Nat) : ℚ) ≤ Q := by
          have : ((m * 2 ^ j : Nat) : ℚ) ≤ ((M / 2 ^ k : Nat) : ℚ) := Nat.cast_le.2 hn
          simpa [hQ] using this
        have : R ≤ -(((m * 2 ^ j : Nat) : ℚ) * K - (K * Q + R)) := by nlinarith
        exact le_trans herrle.1 (le_trans this (neg_le_abs _))
    · -- the other value has a smaller exponent: it lies below the truncated mantissa
      have hkb : (k : ℤ) = (bitLength M : Int) - 53 := by omega
      have hnat : 2 ^ 52 ≤ M / 2 ^ k := by
        rw [Nat.le_div_iff_mul_le (by positivity), ← pow_add]
        exact le_trans (Nat.pow_le_pow_right (by norm_num) (by omega)) hlo
      have hQ52 : ((2 ^ 52 : Nat) : ℚ) ≤ Q := Nat.cast_le.2 hnat
      have hmq : (m : ℚ) < 2 * ((2 ^ 52 : Nat) : ℚ) := by
        have : ((m : Nat) : ℚ) < ((2 * 2 ^ 52 : Nat) : ℚ) := Nat.cast_lt.2 (by omega)
        rwa [Nat.cast_mul, Nat.cast_ofNat] at this
      generalize ((2 ^ 52 : Nat) : ℚ) = C at hQ52 hmq
      obtain ⟨j, hj⟩ : ∃ j : Nat, E + (k : ℤ) = e₀ + 1 + (j : ℤ) :=
        ⟨(E + k - e₀ - 1).toNat, by omega⟩
      have hB : (0 : ℚ) < 2 ^ e₀ := by positivity
      have hAK : A * K = 2 ^ e₀ * 2 * 2 ^ j := by
        rw [← hEk, hj, zpow_add₀ h2, zpow_add₀ h2, zpow_natCast]
        norm_num
      have hjpos : (1 : ℚ) ≤ 2 ^ j := one_le_pow₀ (by norm_num)
      have hQ0 : 0 ≤ Q := Nat.cast_nonneg _
      have hm0 : (0 : ℚ) ≤ m := Nat.cast_nonneg _
      have hdle : (m : ℚ) * 2 ^ e₀ ≤ Q * (A * K) := by
        rw [hAK]
        generalize (2 : ℚ) ^ e₀ = B at hB
        generalize (2 : ℚ) ^ j = J at hjpos
        have h1 : (m : ℚ) * B ≤ 2 * C * B := mul_le_mul_of_nonneg_right (le_of_lt hmq) (le_of_lt hB)
        have h3 : 2 * C * B ≤ 2 * Q * B :=
          mul_le_mul_of_nonneg_right (by linarith) (le_of_lt hB)
        have h4 : 2 * Q * B * 1 ≤ 2 * Q * B * J :=
          mul_le_mul_of_nonneg_left hjpos (by positivity)
        calc (m : ℚ) * B ≤ 2 * Q * B := le_trans h1 h3
          _ = 2 * Q * B * 1 := by ring
          _ ≤ 2 * Q * B * J := h4
          _ = Q * (B * 2 * J) := by ring
      have : A * R ≤ -((m : ℚ) * 2 ^ e₀ - (M : ℚ) * A) := by
        rw [hMQ]
        have e1 : (K * Q + R) * A = Q * (A * K) + A * R := by ring
        linarith
      calc A * |q' * K - (K * Q + R)| ≤ A * R :=
            mul_le_mul_of_nonneg_left herrle.1 (le_of_lt hA)
        _ ≤ -((m : ℚ) * 2 ^ e₀ - (M : ℚ) * A) := this
        _ ≤ |(m : ℚ) * 2 ^ e₀ - (M : ℚ) * A| := neg_le_abs _

/-- The sign of a rounded value is the sign asked for. -/
theorem Double.round_sign (neg : Bool) (M : Nat) (E : Int) (n : Bool) (q : Nat)
    (e : Int) (h : Double.round neg M E = .fin n q e) : n = neg := by
  unfold Double.round at h
  by_cases hM : M = 0
  · rw [if_pos hM] at h
    cases h
    rfl
  · rw [if_neg hM] at h
    generalize max ((bitLength M : Int) - 53) (-1074 - E) = s at h
    cases s with
    | ofNat k =>
      simp only at h
      split at h
      · exact (Double.pack_eq_fin _ _ _ _ _ _ h).2
      · exact (Double.pack_eq_fin _ _ _ _ _ _ h).2
    | negSucc k => exact (Double.pack_eq_fin _ _ _ _ _ _ h).2

theorem abs_signed_le (R V W : ℚ) (hV : 0 ≤ V) (hW : 0 ≤ W) (h : |R - V| ≤ |W - V|)
    (n c : Bool) :
    |(if n then -1 else 1) * R - (if n then -1 else 1) * V| ≤
      |(if c then -1 else 1) * W - (if n then -1 else 1) * V| := by
  have hWV : |W - V| ≤ W + V := abs_le.2 ⟨by linarith, by linarith⟩
  cases n <;> cases c <;> simp only [if_true, if_false, Bool.false_eq_true, one_mul]
  · exact h
  · have e1 : |-1 * W - V| = W + V := by
      have : -1 * W - V = -(W + V) := by ring
      rw [this, abs_neg, abs_of_nonneg (by linarith : 0 ≤ W + V)]
    rw [e1]
    exact le_trans h hWV
  · have e1 : |-1 * R - -1 * V| = |R - V| := by
      have : -1 * R - -1 * V = -(R - V) := by ring
      rw [this, abs_neg]
    have e2 : |W - -1 * V| = W + V := by
      have : W - -1 * V = W + V := by ring
      rw [this, abs_of_nonneg (by linarith : 0 ≤ W + V)]
    rw [e1, e2]
    exact le_trans h hWV
  · have e1 : |-1 * R - -1 * V| = |R - V| := by
      have : -1 * R - -1 * V = -(R - V) := by ring
      rw [this, abs_neg]
    have e2 : |-1 * W - -1 * V| = |W - V| := by
      have : -1 * W - -1 * V = -(W - V) := by ring
      rw [this, abs_neg]
    rw [e1, e2]
    exact h

/-- A finite product is a binary64 value nearest to the product in the rationals:
no binary64 value is nearer to it. -/
theorem Double.mul_nearest (x y d : Double) (r v w : ℚ)
    (hr : (Double.mul x y).toRat = some r) (hv : Double.exactProduct x y = some v)
    (hd : d.isBinary64 = true) (hw : d.toRat = some w) : |r - v| ≤ |w - v| := by
  cases x with
  | nan => simp [Double.exactProduct, Double.toRat] at hv
  | inf a => simp [Double.exactProduct, Double.toRat] at hv
  | fin a mx ex =>
    cases y with
    | nan => simp [Double.exactProduct, Double.toRat] at hv
    | inf b => simp [Double.exactProduct, Double.toRat] at hv
    | fin b my ey =>
      cases d with
      | nan => simp [Double.toRat] at hw
      | inf c => simp [Double.toRat] at hw
      | fin c m e₀ =>
        have h2 : (2 : ℚ) ≠ 0 := by norm_num
        simp only [Double.isBinary64, Bool.and_eq_true, decide_eq_true_eq] at hd
        obtain ⟨⟨hm, he₁⟩, -⟩ := hd
        have hmul : Double.mul (.fin a mx ex) (.fin b my ey) =
            Double.round (xor a b) (mx * my) (ex + ey) := rfl
        rw [hmul] at hr
        cases hround : Double.round (xor a b) (mx * my) (ex + ey) with
        | nan => simp [hround, Double.toRat] at hr
        | inf c' => simp [hround, Double.toRat] at hr
        | fin n q e =>
          have hn := Double.round_sign _ _ _ _ _ _ hround
          have hnear := Double.round_nearest _ _ _ _ _ _ hround m e₀ hm he₁
          rw [hround] at hr
          simp only [Double.toRat, Option.some.injEq] at hr hw
          simp only [Double.exactProduct, Double.toRat, Option.some.injEq] at hv
          subst hn
          have hP : (0 : ℚ) ≤ (m : ℚ) * 2 ^ e₀ := by positivity
          have hQ : (0 : ℚ) ≤ ((mx * my : Nat) : ℚ) * 2 ^ (ex + ey) := by positivity
          have hvM : v = (if xor a b then -1 else 1) *
              (((mx * my : Nat) : ℚ) * 2 ^ (ex + ey)) := by
            rw [← hv, zpow_add₀ h2]
            push_cast
            cases a <;> cases b <;> simp <;> ring
          have hrR : r = (if xor a b then -1 else 1) * ((q : ℚ) * 2 ^ e) := by
            rw [← hr]
            ring
          have hwW : w = (if c then -1 else 1) * ((m : ℚ) * 2 ^ e₀) := by
            rw [← hw]
            ring
          rw [hrR, hwW, hvM]
          exact abs_signed_le _ _ _ hQ hP hnear (xor a b) c

set_option maxRecDepth 100000

/-! ## The computed total price -/

/-- C1, refuted: for the body with `price_per_square_meter` 0.1 (the binary64 value
nearest to it) and `square_meters` 3, both handlers send a row whose `total_price` is
`5404319552844596 * 2^-54` (0.30000000000000004), which is not the product of the
two values of that body. -/
theorem total_price_not_exact_counterexample :
    tenth.isBinary64 = true ∧
    tenth.toRat = some (7205759403792794 / 2 ^ 56) ∧
    |(7205759403792794 / 2 ^ 56 : ℚ) - 1 / 10| < 1 / 2 ^ 57 ∧
    (Double.ofNat 3).toRat = some 3 ∧
    (postProperties jsOps tenthBody).sentRow.map (fun p => p.total_price) =
      some (.num (.fin false 5404319552844596 (-54))) ∧
    (putProperty jsOps "1" tenthBody).sentRow.map (fun p => p.total_price) =
      some (.num (.fin false 5404319552844596 (-54))) ∧
    (Double.fin false 5404319552844596 (-54)).toRat ≠
      Double.exactProduct tenth (Double.ofNat 3) := by
  have h3 : Double.ofNat 3 = .fin false 6755399441055744 (-51) := by decide
  refine ⟨by decide, ?_, ?_, ?_, by rfl, by rfl, ?_⟩
  · simp only [tenth, Double.toRat]
    norm_num
  · rw [abs_lt]
    constructor <;> norm_num
  · rw [h3]
    simp only [Double.toRat]
    norm_num
  · rw [h3]
    simp only [tenth, Double.toRat, Double.exactProduct]
    norm_num

/-- C1, amended: for every request body and path id, whenever the `POST /properties`
or the `PUT /properties/:id` handler hands a row payload to storage, both hand the
same one, the two values of that body convert to numbers `x` and `y`, and the
payload's `total_price` is the binary64 product of `x` and `y`: a binary64 value,
when finite one nearest to their product in the rationals (no binary64 value is
nearer), and equal to that product exactly when it is itself a binary64 value. -/
theorem total_price_is_rounded_product (ofString : String → Double)
    (toString : Double → String) (id : String) (body : JsObj Double)
    (p : Property Double)
    (hsent : (postProperties (doubleOps ofString toString) body).sentRow = some p ∨
      (putProperty (doubleOps ofString toString) id body).sentRow = some p) :
    (postProperties (doubleOps ofString toString) body).sentRow = some p ∧
    (putProperty (doubleOps ofString toString) id body).sentRow = some p ∧
    ∃ x y : Double,
      (body.get "price_per_square_meter").toNumber (doubleOps ofString toString) = .ok x ∧
      (body.get "square_meters").toNumber (doubleOps ofString toString) = .ok y ∧
      p.total_price = .num (Double.mul x y) ∧
      (Double.mul x y).isBinary64 = true ∧
      (∀ (d : Double) (r v w : ℚ), d.isBinary64 = true →
        (Double.mul x y).toRat = some r → Double.exactProduct x y = some v →
        d.toRat = some w → |r - v| ≤ |w - v|) ∧
      ((Double.mul x y).toRat = Double.exactProduct x y ↔
        ∃ d : Double, d.isBinary64 = true ∧ d.toRat = Double.exactProduct x y) := by
  have hbuild : buildProperty (doubleOps ofString toString) body = .ok p := by
    cases hb : buildProperty (doubleOps ofString toString) body with
    | error err => simp [postProperties, putProperty, hb, Action.sentRow] at hsent
    | ok q =>
      simp only [postProperties, putProperty, hb, Action.sentRow, Option.some.injEq,
        or_self] at hsent
      rw [hsent]
  obtain ⟨x, y, hx, hy, hp⟩ := buildProperty_eq_ok _ body p hbuild
  refine ⟨?_, ?_, x, y, hx, hy, ?_, Double.mul_isBinary64 x y,
    fun d r v w hd hr hv hw => Double.mul_nearest x y d r v w hr hv hd hw,
    Double.mul_exact_iff x y⟩
  · simp only [postProperties, hbuild, Action.sentRow]
  · simp only [putProperty, hbuild, Action.sentRow]
  · rw [hp]
    rfl

/-- C1, on the Berlin scenario: the payload of the Berlin body is sent by both
handlers, and its `total_price` is the product of 3000 and 50, which is 150000
exactly. -/
theorem total_price_is_rounded_product_witness :
    (postProperties jsOps berlin).sentRow = some berlinProperty ∧
    (putProperty jsOps "1" berlin).sentRow = some berlinProperty ∧
    berlinProperty.total_price = .num (Double.mul (Double.ofNat 3000) (Double.ofNat 50)) ∧
    (Double.mul (Double.ofNat 3000) (Double.ofNat 50)).toRat = some 150000 :=
  have h := total_price_is_rounded_product integerOfString integerToString "1" berlin
    berlinProperty (Or.inl (by rfl))
  have hv : (Double.mul (Double.ofNat 3000) (Double.ofNat 50)).toRat = some 150000 := by
    rw [show Double.mul (Double.ofNat 3000) (Double.ofNat 50) =
      .fin false 5153960755200000 (-35) from by decide]
    simp only [Double.toRat]
    norm_num
  ⟨h.1, h.2.1, by rfl, hv⟩

/-- C2: two request bodies that agree on the eight caller fields give the same
`POST` action and the same `PUT` action (same statement, same row payload, same
callback), hence the same reply and the same table afterwards, whatever else the
bodies hold (a `total_price`, an `id`, any other key). -/
theorem caller_total_price_ignored {N : Type} (ops : NumberOps N) (id : String)
    (failure : Option String) (db : Db N) (b₁ b₂ : JsObj N)
    (hagree : ∀ k ∈ callerFields, b₁.get k = b₂.get k) :
    postProperties ops b₁ = postProperties ops b₂ ∧
    putProperty ops id b₁ = putProperty ops id b₂ ∧
    (postProperties ops b₁).sentRow = (postProperties ops b₂).sentRow ∧
    (putProperty ops id b₁).sentRow = (putProperty ops id b₂).sentRow ∧
    db.run failure (postProperties ops b₁) = db.run failure (postProperties ops b₂) ∧
    db.run failure (putProperty ops id b₁) = db.run failure (putProperty ops id b₂) := by
  have hp : buildProperty ops b₁ = buildProperty ops b₂ := by
    simp only [buildProperty]
    rw [hagree "location" (by simp [callerFields]),
      hagree "square_meters" (by simp [callerFields]),
      hagree "price_per_square_meter" (by simp [callerFields]),
      hagree "owner" (by simp [callerFields]),
      hagree "country" (by simp [callerFields]),
      hagree "region" (by simp [callerFields]),
      hagree "province" (by simp [callerFields]),
      hagree "district" (by simp [callerFields])]
  simp only [postProperties, putProperty, hp, and_self]

/-- C2, on a concrete pair: the Berlin body and the same body with a forged
`total_price`, `id` and an extra key differ in those keys, agree on the eight caller
fields, and are handled alike: the row stored is the Berlin row with the computed
`total_price`. -/
theorem caller_total_price_ignored_witness :
    berlin.get "total_price" = .undefined ∧
    berlinForged.get "total_price" = .num (Double.ofNat 1) ∧
    berlinForged.get "id" = .num (Double.ofNat 7) ∧
    (∀ k ∈ callerFields, berlin.get k = berlinForged.get k) ∧
    postProperties jsOps berlin = postProperties jsOps berlinForged ∧
    putProperty jsOps "1" berlin = putProperty jsOps "1" berlinForged ∧
    ((emptyDb strictColumn).run none (postProperties jsOps berlinForged)).2.rows =
      [{ id := 1, cols := berlinProperty }] :=
  have hagree : ∀ k ∈ callerFields, berlin.get k = berlinForged.get k := by
    intro k hk
    simp only [callerFields, List.mem_cons, List.mem_singleton, List.not_mem_nil,
      or_false] at hk
    rcases hk with rfl | rfl | rfl | rfl | rfl | rfl | rfl | rfl <;> rfl
  have h := caller_total_price_ignored jsOps "1" none (emptyDb strictColumn) berlin
    berlinForged hagree
  ⟨rfl, rfl, rfl, hagree, h.1, h.2.1, by rfl⟩

/-! ## Reading one property -/

/-- C4: for every path id and every table whose rows have distinct keys, without a
storage error `GET /properties/:id` answers 404 with `{error: "Property not found"}`
exactly when no stored row has that id; and when a stored row has it, that row is
the only one that has it and the answer is 200 with that row as stored. -/
theorem get_by_id_found_or_404 {N : Type} (db : Db N) (id : String)
    (hwf : db.WellFormed) :
    ((db.run none (getProperty id)).1 = .json 404 (.error "Property not found") ↔
      ∀ r ∈ db.rows, keyOf id ≠ some r.id) ∧
    (∀ r ∈ db.rows, keyOf id = some r.id →
      (db.run none (getProperty id)).1 = .json 200 (.row r) ∧
      ∀ r' ∈ db.rows, keyOf id = some r'.id → r' = r) := by
  have hsingle : ∀ r ∈ db.rows, keyOf id = some r.id →
      db.rows.filter (hasKey id) = [r] :=
    fun r hr hk => filter_hasKey_eq_singleton id db.rows hwf.1 r hr hk
  refine ⟨?_, ?_⟩
  · rw [← filter_hasKey_eq_nil]
    simp only [Db.run, getProperty]
    cases hf : db.rows.filter (hasKey id) with
    | nil => simp [getPropertyCallback]
    | cons x xs => simp [getPropertyCallback]
  · intro r hr hk
    refine ⟨?_, ?_⟩
    · simp only [Db.run, getProperty, hsingle r hr hk, getPropertyCallback]
    · intro r' hr' hk'
      have h := hsingle r' hr' hk'
      rw [hsingle r hr hk] at h
      exact (List.cons.inj h).1.symm

/-- C4, on a concrete table: with the Berlin row stored under key 1, `GET
/properties/1` answers 200 with that row and `GET /properties/999999` answers 404. -/
theorem get_by_id_found_or_404_witness :
    berlinDb.WellFormed ∧
    (berlinDb.run none (getProperty "1")).1 =
      .json 200 (.row { id := 1, cols := berlinProperty }) ∧
    (berlinDb.run none (getProperty "999999")).1 =
      .json 404 (.error "Property not found") :=
  have hwf : berlinDb.WellFormed := (emptyDb_wellFormed strictColumn).run none _
  have hrows : berlinDb.rows = [{ id := 1, cols := berlinProperty }] := by rfl
  ⟨hwf,
   ((get_by_id_found_or_404 berlinDb "1" hwf).2 { id := 1, cols := berlinProperty }
      (by rw [hrows]; exact List.mem_singleton.2 rfl) (by decide)).1,
   (get_by_id_found_or_404 berlinDb "999999" hwf).1.2 (by
      intro r hr
      rw [hrows] at hr
      rw [List.mem_singleton.1 hr]
      decide)⟩

/-! ## Create, then read -/

/-- C3, refuted: the body `berlinUnconvertible` has all eight fields, yet on the empty
table `POST /properties` with it is answered with status 500 (the multiplication of
line 188 throws), stores nothing, and a `GET /properties/{id}` afterwards answers
404 whatever the id. -/
theorem create_then_get_counterexample :
    (∀ k ∈ callerFields, berlinUnconvertible.get k ≠ .undefined) ∧
    (emptyDb strictColumn).run none (postProperties jsOps berlinUnconvertible) =
      (.serverError cannotConvert, emptyDb strictColumn) ∧
    ∀ id : String,
      (((emptyDb strictColumn).run none (postProperties jsOps berlinUnconvertible)).2.run
        none (getProperty id)).1 = .json 404 (.error "Property not found") := by
  refine ⟨?_, by rfl, fun _ => by rfl⟩
  intro k hk
  simp only [callerFields, List.mem_cons, List.mem_singleton, List.not_mem_nil,
    or_false] at hk
  rcases hk with rfl | rfl | rfl | rfl | rfl | rfl | rfl | rfl <;>
    exact fun h => JsVal.noConfusion h

/-- C3, amended: round trip. For a request body whose two numeric fields the
multiplication converts (so that the payload `p` is built) and whose payload the
table's columns accept (holding it as `stored`), on a table with distinct keys and
without a storage error: `POST /properties` answers 200 with the registration
message and nothing else; the id the `INSERT` reports for the new row is the counter
`db.nextId`; and `GET /properties/{id}` for a path id denoting it answers 200 with
the record of that id holding `stored`. The payload's eight caller fields are the
body's and its `total_price` the computed product; each stored column is what its
column holds for that payload value, hence the value itself wherever the column
keeps it. -/
theorem create_then_get_round_trip {N : Type} (ops : NumberOps N) (db : Db N)
    (body : JsObj N) (id : String) (p stored : Property N) (hwf : db.WellFormed)
    (hbuild : buildProperty ops body = .ok p)
    (hprint : formatError p = none)
    (hstore : storeCols db.column p = .ok stored)
    (hid : keyOf id = some db.nextId) :
    (db.run none (postProperties ops body)).1 =
      .json 200 (.message "Property registered successfully") ∧
    (∀ callback : Outcome OkPacket → Reply N,
      (db.run none (.insert p callback)).1 =
        callback (.ok { affectedRows := 1, insertId := db.nextId })) ∧
    ((db.run none (postProperties ops body)).2.run none (getProperty id)).1 =
      .json 200 (.row { id := db.nextId, cols := stored }) ∧
    (∃ x y : N,
      (body.get "price_per_square_meter").toNumber ops = .ok x ∧
      (body.get "square_meters").toNumber ops = .ok y ∧
      p = { location := body.get "location", square_meters := body.get "square_meters",
            price_per_square_meter := body.get "price_per_square_meter",
            total_price := .num (ops.mul x y), owner := body.get "owner",
            country := body.get "country", region := body.get "region",
            province := body.get "province", district := body.get "district" }) ∧
    (toColumn db.column (.varchar 100) p.location = .ok stored.location ∧
     toColumn db.column (.decimal 10 2) p.square_meters = .ok stored.square_meters ∧
     toColumn db.column (.decimal 10 2) p.price_per_square_meter =
       .ok stored.price_per_square_meter ∧
     toColumn db.column (.decimal 10 2) p.total_price = .ok stored.total_price ∧
     toColumn db.column (.varchar 50) p.owner = .ok stored.owner ∧
     toColumn db.column (.varchar 50) p.country = .ok stored.country ∧
     toColumn db.column (.varchar 50) p.region = .ok stored.region ∧
     toColumn db.column (.varchar 50) p.province = .ok stored.province ∧
     toColumn db.column (.varchar 50) p.district = .ok stored.district) := by
  have hpost : db.run none (postProperties ops body) =
      (.json 200 (.message "Property registered successfully"),
       { db with rows := db.rows ++ [{ id := db.nextId, cols := stored }],
                 nextId := db.nextId + 1 }) := by
    simp only [postProperties, hbuild, Db.run, hprint, hstore, postPropertiesCallback]
  refine ⟨by rw [hpost], ?_, ?_, buildProperty_eq_ok ops body p hbuild,
    storeCols_eq_ok db.column p stored hstore⟩
  · intro callback
    simp only [Db.run, hprint, hstore]
  · have hwf' := hwf.run none (postProperties ops body)
    rw [hpost] at hwf' ⊢
    have hmem : ({ id := db.nextId, cols := stored } : Row N) ∈
        db.rows ++ [{ id := db.nextId, cols := stored }] := by simp
    have hsingle := filter_hasKey_eq_singleton id _ hwf'.1 _ hmem hid
    simp only [Db.run, getProperty, hsingle, getPropertyCallback]

/-- C3, on the Berlin scenario: on the empty strict table the create is answered 200,
the new row gets id 1, the columns keep the Berlin payload unchanged, and `GET
/properties/1` answers 200 with the Berlin fields and `total_price` 150000. -/
theorem create_then_get_round_trip_witness :
    storeCols strictColumn berlinProperty = .ok berlinProperty ∧
    ((emptyDb strictColumn).run none (postProperties jsOps berlin)).1 =
      .json 200 (.message "Property registered successfully") ∧
    (((emptyDb strictColumn).run none (postProperties jsOps berlin)).2.run none
      (getProperty "1")).1 = .json 200 (.row { id := 1, cols := berlinProperty }) ∧
    berlinProperty.total_price = .num (Double.ofNat 150000) ∧
    (Double.ofNat 150000).toRat = some 150000 :=
  have h := create_then_get_round_trip jsOps (emptyDb strictColumn) berlin "1"
    berlinProperty berlinProperty (emptyDb_wellFormed strictColumn) (by rfl) (by rfl)
    (by rfl) (by decide)
  have hv : (Double.ofNat 150000).toRat = some 150000 := by
    rw [show Double.ofNat 150000 = .fin false 5153960755200000 (-35) from by decide]
    simp only [Double.toRat]
    norm_num
  ⟨by rfl, h.1, h.2.2.1, rfl, hv⟩

/-! ## Not found on update and delete -/

/-- C5: for every storage outcome without an error, the callbacks the `PUT
/properties/:id` and `DELETE /properties/:id` handlers register answer 404 with
`{error: "Property not found"}` if and only if `affectedRows` is zero, and
otherwise answer 200 with `{message: "Property updated successfully"}` and
`{message: "Property deleted successfully"}` respectively. -/
theorem put_delete_404_iff_no_rows {N : Type} (ops : NumberOps N) (id : String)
    (body : JsObj N) (results : OkPacket) :
    (putProperty ops id body =
      match buildProperty ops body with
      | .error err => .raise err
      | .ok property => .update property id putPropertyCallback) ∧
    (deleteProperty id : Action N) = .delete id deletePropertyCallback ∧
    ((putPropertyCallback (.ok results) : Reply N) =
        .json 404 (.error "Property not found") ↔ results.affectedRows = 0) ∧
    ((deletePropertyCallback (.ok results) : Reply N) =
        .json 404 (.error "Property not found") ↔ results.affectedRows = 0) ∧
    ((putPropertyCallback (.ok results) : Reply N) =
        if results.affectedRows = 0 then .json 404 (.error "Property not found")
        else .json 200 (.message "Property updated successfully")) ∧
    ((deletePropertyCallback (.ok results) : Reply N) =
        if results.affectedRows = 0 then .json 404 (.error "Property not found")
        else .json 200 (.message "Property deleted successfully")) := by
  refine ⟨rfl, rfl, ?_, ?_, rfl, rfl⟩
  · simp only [putPropertyCallback]
    split <;> simp_all
  · simp only [deletePropertyCallback]
    split <;> simp_all

/-! ## Deleting -/

/-- C6: for every table and every path id, without a storage error: `DELETE` of an
id that no stored row has answers 404 with `{error: "Property not found"}` and
leaves the table as it was; `DELETE` of an id that a stored row has answers 200 with
the deletion message, leaves exactly the rows with another id, in their order (one
row fewer when keys are distinct), and a second `DELETE` of the same id right after
answers 404 and changes nothing. -/
theorem delete_then_delete_again {N : Type} (db : Db N) (id : String) :
    ((∀ r ∈ db.rows, keyOf id ≠ some r.id) →
      db.run none (deleteProperty id) = (.json 404 (.error "Property not found"), db)) ∧
    ((∃ r ∈ db.rows, keyOf id = some r.id) →
      (db.run none (deleteProperty id)).1 =
        .json 200 (.message "Property deleted successfully") ∧
      (db.run none (deleteProperty id)).2.nextId = db.nextId ∧
      (db.run none (deleteProperty id)).2.rows =
        db.rows.filter (fun r => decide (keyOf id ≠ some r.id)) ∧
      (db.WellFormed → (db.run none (deleteProperty id)).2.rows.length + 1 = db.rows.length) ∧
      (db.run none (deleteProperty id)).2.run none (deleteProperty id) =
        (.json 404 (.error "Property not found"), (db.run none (deleteProperty id)).2)) := by
  have hnone : ∀ d : Db N, (∀ r ∈ d.rows, keyOf id ≠ some r.id) →
      d.run none (deleteProperty id) = (.json 404 (.error "Property not found"), d) := by
    intro d h
    have hnil : d.rows.filter (hasKey id) = [] := (filter_hasKey_eq_nil id d.rows).2 h
    have hall : d.rows.filter (fun r => !hasKey id r) = d.rows := by
      rw [List.filter_eq_self]
      intro r hr
      simp [hasKey, h r hr]
    simp only [Db.run, deleteProperty, hnil, hall, deletePropertyCallback, List.length_nil]
    rfl
  refine ⟨hnone db, ?_⟩
  rintro ⟨r, hr, hk⟩
  have hrows : (db.run none (deleteProperty id)).2.rows =
      db.rows.filter (fun r => decide (keyOf id ≠ some r.id)) := by
    simp only [Db.run, deleteProperty]
    apply List.filter_congr
    intro x _
    simp [hasKey, beq_eq_decide]
  refine ⟨?_, rfl, hrows, ?_, ?_⟩
  · have hpos : (db.rows.filter (hasKey id)).length ≠ 0 := by
      intro h0
      have hmem : r ∈ db.rows.filter (hasKey id) :=
        List.mem_filter.2 ⟨hr, (hasKey_iff id r).2 hk⟩
      rw [List.length_eq_zero.1 h0] at hmem
      cases hmem
    simp only [Db.run, deleteProperty, deletePropertyCallback, if_neg hpos]
  · intro hwf
    have hlen : db.rows.length = (db.rows.filter (hasKey id)).length +
        (db.rows.filter (fun r => !hasKey id r)).length :=
      List.length_eq_length_filter_add (hasKey id)
    rw [filter_hasKey_eq_singleton id db.rows hwf.1 r hr hk] at hlen
    simp only [Db.run, deleteProperty]
    simp only [List.length_singleton] at hlen
    omega
  · apply hnone
    intro x hx
    rw [hrows] at hx
    simpa using (List.mem_filter.1 hx).2

/-- C6, on concrete tables: on the empty table `DELETE /properties/5` answers 404
and changes nothing; with the Berlin row stored under key 1, `DELETE /properties/1`
answers 200 and empties the table, and the same request again answers 404. -/
theorem delete_then_delete_again_witness :
    (emptyDb strictColumn).run none (deleteProperty "5") =
      (.json 404 (.error "Property not found"), emptyDb strictColumn) ∧
    (berlinDb.run none (deleteProperty "1")).1 =
      .json 200 (.message "Property deleted successfully") ∧
    (berlinDb.run none (deleteProperty "1")).2.rows.length + 1 = berlinDb.rows.length ∧
    ((berlinDb.run none (deleteProperty "1")).2.run none (deleteProperty "1")).1 =
      .json 404 (.error "Property not found") :=
  have hrows : berlinDb.rows = [{ id := 1, cols := berlinProperty }] := by rfl
  have hstored : ∃ r ∈ berlinDb.rows, keyOf "1" = some r.id :=
    ⟨{ id := 1, cols := berlinProperty }, by rw [hrows]; exact List.mem_singleton.2 rfl,
      by decide⟩
  have h := (delete_then_delete_again berlinDb "1").2 hstored
  ⟨(delete_then_delete_again (emptyDb strictColumn) "5").1 (fun _ hr => nomatch hr), h.1,
   h.2.2.2.1 ((emptyDb_wellFormed strictColumn).run none _), congrArg Prod.fst h.2.2.2.2⟩

/-! ## Updating -/

/-- C7, refuted: with the Berlin row stored under key 1, `PUT /properties/1` with the
body `berlinUnconvertible` (owner `B`) is answered with status 500 (the
multiplication of line 283 throws before any statement is sent) and the table is
unchanged: the row still holds the Berlin payload, owner `A`. -/
theorem put_replaces_whole_row_counterexample :
    (∃ r ∈ berlinDb.rows, keyOf "1" = some r.id) ∧
    berlinUnconvertible.get "owner" = .str "B" ∧
    berlinDb.run none (putProperty jsOps "1" berlinUnconvertible) =
      (.serverError cannotConvert, berlinDb) ∧
    (berlinDb.run none (putProperty jsOps "1" berlinUnconvertible)).2.rows =
      [{ id := 1, cols := berlinProperty }] ∧
    berlinProperty.owner = .str "A" :=
  ⟨⟨{ id := 1, cols := berlinProperty }, by
      rw [show berlinDb.rows = [{ id := 1, cols := berlinProperty }] from by rfl]
      exact List.mem_singleton.2 rfl, by decide⟩,
   by rfl, by rfl, by rfl, rfl⟩

/-- C7, amended: update replaces the entire record. For every table, path id and
request body whose two numeric fields the multiplication converts (so that the
payload `p` is built and the `UPDATE` sent), without a storage error, when a stored
row has the id and the table's columns accept the payload (holding it as `stored`):
`PUT /properties/:id` answers 200 with the update message; every row with that id
keeps its id and position and has all nine columns replaced by `stored`; every row
with another id is unchanged; no row is added or removed. The payload's eight caller
fields are the body's (`undefined` when the body lacks one) and its `total_price`
the product computed from the request; each stored column is what its column holds
for that payload value, and `NULL` for a field the body lacks, whatever the row held
before. -/
theorem put_replaces_whole_row {N : Type} (ops : NumberOps N) (db : Db N) (id : String)
    (body : JsObj N) (p stored : Property N)
    (hstored : ∃ r ∈ db.rows, keyOf id = some r.id)
    (hbuild : buildProperty ops body = .ok p)
    (hprint : formatError p = none)
    (hstore : storeCols db.column p = .ok stored) :
    (db.run none (putProperty ops id body)).1 =
      .json 200 (.message "Property updated successfully") ∧
    (db.run none (putProperty ops id body)).2.nextId = db.nextId ∧
    (db.run none (putProperty ops id body)).2.rows =
      db.rows.map (fun r =>
        if keyOf id = some r.id then { id := r.id, cols := stored } else r) ∧
    (∃ x y : N,
      (body.get "price_per_square_meter").toNumber ops = .ok x ∧
      (body.get "square_meters").toNumber ops = .ok y ∧
      p = { location := body.get "location", square_meters := body.get "square_meters",
            price_per_square_meter := body.get "price_per_square_meter",
            total_price := .num (ops.mul x y), owner := body.get "owner",
            country := body.get "country", region := body.get "region",
            province := body.get "province", district := body.get "district" }) ∧
    (toColumn db.column (.varchar 100) p.location = .ok stored.location ∧
     toColumn db.column (.decimal 10 2) p.square_meters = .ok stored.square_meters ∧
     toColumn db.column (.decimal 10 2) p.price_per_square_meter =
       .ok stored.price_per_square_meter ∧
     toColumn db.column (.decimal 10 2) p.total_price = .ok stored.total_price ∧
     toColumn db.column (.varchar 50) p.owner = .ok stored.owner ∧
     toColumn db.column (.varchar 50) p.country = .ok stored.country ∧
     toColumn db.column (.varchar 50) p.region = .ok stored.region ∧
     toColumn db.column (.varchar 50) p.province = .ok stored.province ∧
     toColumn db.column (.varchar 50) p.district = .ok stored.district) ∧
    (∀ type : ColumnType, toColumn db.column type (.undefined : JsVal N) = .ok .null) := by
  have hne := filter_hasKey_ne_nil id db.rows hstored
  have hput : db.run none (putProperty ops id body) =
      (.json 200 (.message "Property updated successfully"),
       { db with rows := db.rows.map fun r =>
           if hasKey id r then { id := r.id, cols := stored } else r }) := by
    simp only [putProperty, hbuild, Db.run, hprint]
    cases hf : db.rows.filter (hasKey id) with
    | nil => exact absurd hf hne
    | cons first more =>
      simp only [hstore, putPropertyCallback, List.length_cons]
      rw [if_neg (by omega)]
  refine ⟨by rw [hput], by rw [hput], ?_, buildProperty_eq_ok ops body p hbuild,
    storeCols_eq_ok db.column p stored hstore, fun _ => rfl⟩
  rw [hput]
  apply List.map_congr_left
  intro x _
  by_cases hx : keyOf id = some x.id
  · rw [if_pos ((hasKey_iff id x).2 hx), if_pos hx]
  · rw [if_neg (by simpa [hasKey] using hx), if_neg hx]

/-- C7, on a concrete table: with the Berlin row stored under key 1, a `PUT
/properties/1` with a new owner, 60 square metres at 3000 and no `district` leaves
one row, under key 1, with the new owner and area, `total_price` 180000 and `NULL`
as district. -/
theorem put_replaces_whole_row_witness :
    (berlinDb.run none (putProperty jsOps "1" berlinResold)).1 =
      .json 200 (.message "Property updated successfully") ∧
    (berlinDb.run none (putProperty jsOps "1" berlinResold)).2.rows =
      [{ id := 1,
         cols :=
           { location := .str "Berlin", square_meters := .num (Double.ofNat 60),
             price_per_square_meter := .num (Double.ofNat 3000),
             total_price := .num (Double.ofNat 180000), owner := .str "B",
             country := .str "DE", region := .str "Berlin", province := .str "Berlin",
             district := .null } }] ∧
    berlinResold.get "district" = .undefined ∧
    (Double.ofNat 180000).toRat = some 180000 :=
  have hstored : ∃ r ∈ berlinDb.rows, keyOf "1" = some r.id :=
    ⟨{ id := 1, cols := berlinProperty }, by
      rw [show berlinDb.rows = [{ id := 1, cols := berlinProperty }] from by rfl]
      exact List.mem_singleton.2 rfl, by decide⟩
  have h := put_replaces_whole_row jsOps berlinDb "1" berlinResold
    { location := .str "Berlin", square_meters := .num (Double.ofNat 60),
      price_per_square_meter := .num (Double.ofNat 3000),
      total_price := .num (Double.ofNat 180000), owner := .str "B",
      country := .str "DE", region := .str "Berlin", province := .str "Berlin",
      district := .undefined }
    { location := .str "Berlin", square_meters := .num (Double.ofNat 60),
      price_per_square_meter := .num (Double.ofNat 3000),
      total_price := .num (Double.ofNat 180000), owner := .str "B",
      country := .str "DE", region := .str "Berlin", province := .str "Berlin",
      district := .null }
    hstored (by rfl) (by rfl) (by rfl)
  have hv : (Double.ofNat 180000).toRat = some 180000 := by
    rw [show Double.ofNat 180000 = .fin false 6184752906240000 (-35) from by decide]
    simp only [Double.toRat]
    norm_num
  ⟨h.1, by rfl, rfl, hv⟩

/-! ## Start-up -/

/-- C8, refuted: when the connection cannot be established the callback logs and
returns, no `CREATE TABLE` is sent, nothing is thrown, and `app.listen(3000)` has
been called all the same; when the `CREATE TABLE` query returns an error the server
has been started listening as well. -/
theorem startup_listens_after_failed_provisioning :
    (startup (some "ECONNREFUSED") none).listening = some 3000 ∧
    (startup (some "ECONNREFUSED") none).uncaught = none ∧
    (startup (some "ECONNREFUSED") none).queries = [] ∧
    (startup (some "ECONNREFUSED") none).console =
      ["Error connecting to db ECONNREFUSED"] ∧
    (startup none (some "ER_TABLEACCESS_DENIED_ERROR")).listening = some 3000 := by
  decide

/-- C8, amended: `app.listen(3000)` is called by the module body whatever the outcome
of schema provisioning, so the HTTP server is started listening in every case; and
when the connection is established and the `CREATE TABLE IF NOT EXISTS` query
returns an error, that error is thrown out of the callback. -/
theorem startup_listens_regardless (connectErr createTableErr : Option String) :
    (startup connectErr createTableErr).listening = some 3000 ∧
    ∀ err : String, (startup none (some err)).uncaught = some err ∧
      (startup none (some err)).queries = [createTableQuery] := by
  refine ⟨?_, fun _ => ⟨rfl, rfl⟩⟩
  cases connectErr with
  | some stack => rfl
  | none => cases createTableErr <;> rfl

/-! ## Validation -/

/-- C9, refuted: for the empty body (both numeric fields missing) and for a body
whose `square_meters` is the string `abc`, the `POST` and the `PUT` handler each
send a row to storage; its `total_price` is `NaN`. -/
theorem no_numeric_validation_counterexample :
    (JsObj.get ([] : JsObj Double) "square_meters").isNumber = false ∧
    (JsObj.get ([] : JsObj Double) "price_per_square_meter").isNumber = false ∧
    (postProperties jsOps []).sentRow.isSome = true ∧
    (putProperty jsOps "1" []).sentRow.isSome = true ∧
    (postProperties jsOps []).sentRow.map (fun p => p.total_price) = some (.num .nan) ∧
    (notNumeric.get "square_meters").isNumber = false ∧
    (postProperties jsOps notNumeric).sentRow.isSome = true ∧
    (putProperty jsOps "1" notNumeric).sentRow.isSome = true ∧
    (postProperties jsOps notNumeric).sentRow.map (fun p => p.total_price) =
      some (.num .nan) :=
  ⟨rfl, rfl, rfl, rfl, rfl, rfl, by rfl, by rfl, by rfl⟩

/-- C9, amended: create and update do no validation. For every request body the
`POST` and the `PUT` handler multiply the two values as received, whether or not
they are present and numbers. If the multiplication throws, the handler fails
before it sends anything; otherwise it sends one statement to storage with a row
that carries the eight body values as received (`undefined` when missing) and the
product as `total_price`. A missing value, `null`, a boolean, a number and a string
always convert, a missing one to `NaN`; and in binary64 arithmetic the product is
`NaN` as soon as one of the two values is missing and the other converts. -/
theorem writes_send_unvalidated_rows {N : Type} (ops : NumberOps N) (id : String)
    (body : JsObj N) :
    (postProperties ops body =
      match jsMul ops (body.get "price_per_square_meter") (body.get "square_meters") with
      | .error err => .raise err
      | .ok total =>
        .insert
          { location := body.get "location", square_meters := body.get "square_meters",
            price_per_square_meter := body.get "price_per_square_meter",
            total_price := .num total, owner := body.get "owner",
            country := body.get "country", region := body.get "region",
            province := body.get "province", district := body.get "district" }
          postPropertiesCallback) ∧
    (putProperty ops id body =
      match jsMul ops (body.get "price_per_square_meter") (body.get "square_meters") with
      | .error err => .raise err
      | .ok total =>
        .update
          { location := body.get "location", square_meters := body.get "square_meters",
            price_per_square_meter := body.get "price_per_square_meter",
            total_price := .num total, owner := body.get "owner",
            country := body.get "country", region := body.get "region",
            province := body.get "province", district := body.get "district" }
          id putPropertyCallback) ∧
    (jsMul ops (body.get "price_per_square_meter") (body.get "square_meters") =
      match (body.get "price_per_square_meter").toNumber ops,
        (body.get "square_meters").toNumber ops with
      | .ok x, .ok y => .ok (ops.mul x y)
      | .error err, _ => .error err
      | .ok _, .error err => .error err) ∧
    ((JsVal.undefined : JsVal N).toNumber ops = .ok ops.nan ∧
     (JsVal.null : JsVal N).toNumber ops = .ok ops.zero ∧
     (∀ b : Bool, ∃ x, (JsVal.bool b : JsVal N).toNumber ops = .ok x) ∧
     (∀ n : N, (JsVal.num n).toNumber ops = .ok n) ∧
     (∀ s : String, (JsVal.str s : JsVal N).toNumber ops = .ok (ops.ofString s))) ∧
    (∀ (ofString : String → Double) (toString : Double → String) (v : JsVal Double),
      jsMul (doubleOps ofString toString) v .undefined =
        (match v.toNumber (doubleOps ofString toString) with
         | .ok _ => .ok .nan
         | .error err => .error err) ∧
      jsMul (doubleOps ofString toString) .undefined v =
        (match v.toNumber (doubleOps ofString toString) with
         | .ok _ => .ok .nan
         | .error err => .error err)) := by
  refine ⟨?_, ?_, ?_, ⟨rfl, rfl, ?_, fun _ => rfl, fun _ => rfl⟩, ?_⟩
  · simp only [postProperties, buildProperty]
    cases jsMul ops (body.get "price_per_square_meter") (body.get "square_meters") <;> rfl
  · simp only [putProperty, buildProperty]
    cases jsMul ops (body.get "price_per_square_meter") (body.get "square_meters") <;> rfl
  · simp only [jsMul]
    cases (body.get "price_per_square_meter").toNumber ops <;>
      cases (body.get "square_meters").toNumber ops <;> rfl
  · intro b
    cases b
    · exact ⟨ops.zero, rfl⟩
    · exact ⟨ops.one, rfl⟩
  · intro ofString toString v
    simp only [jsMul]
    cases v.toNumber (doubleOps ofString toString) with
    | error err => exact ⟨rfl, rfl⟩
    | ok x => cases x <;> exact ⟨rfl, rfl⟩

/-! ## Reads -/

/-- C10: reads are idempotent. For every table and path id: without a storage error
`GET /properties` answers 200 with all stored rows in the order storage returns
them; `GET /properties` and `GET /properties/:id` leave the table unchanged, with or
without a storage error; so the same read made again right after gives the same
response. -/
theorem reads_are_idempotent {N : Type} (db : Db N) (id : String)
    (failure : Option String) :
    db.run none getProperties = (.json 200 (.rows db.rows), db) ∧
    (db.run failure getProperties).2 = db ∧
    (db.run failure (getProperty id)).2 = db ∧
    ((db.run failure getProperties).2.run failure getProperties).1 =
      (db.run failure getProperties).1 ∧
    ((db.run failure (getProperty id)).2.run failure (getProperty id)).1 =
      (db.run failure (getProperty id)).1 := by
  have h₁ : (db.run failure getProperties).2 = db := by cases failure <;> rfl
  have h₂ : (db.run failure (getProperty id)).2 = db := by cases failure <;> rfl
  refine ⟨rfl, h₁, h₂, ?_, ?_⟩
  · rw [h₁]
  · rw [h₂]

end PropertyApi
